import Mathlib

/-!
Verification development for the Chapter/Scene Store Reconciler of the
LexicraftAI repository.  The definitions below are a shallow embedding of the
JavaScript reconciliation code (the `SceneBuilder` component's
`normalizeScene`, `reindexScenes`, `normalizeStore`, `normalizeChapterMetadata`,
`mergeChaptersFromList`, `mergeBackendScenes`, `persistScenesToBackend`,
`mapSceneType` and the `storageService` module).

Modelling conventions:
* A possibly-absent JS string property is an `Option String`; `none` models
  `undefined`/`null`, and the empty string is the falsy string.
* JS numbers appearing in this code are integers in practice and are modelled
  as `Int`/`Nat`; IEEE-754 rounding is not modelled (no claim depends on it).
* A JS object used as a dictionary is an insertion-ordered association list
  (`JsObj`); enumeration (`Object.keys`/`Object.entries`) follows the JS own-
  property order: canonical array-index keys first in ascending numeric order,
  then the remaining keys in insertion order.
* Code that would throw a `TypeError` is modelled by returning `none`.
* Generated identifiers (`scene-${Date.now()}-${Math.random()...}`) and
  timestamps (`new Date().toISOString()`) are nondeterministic; they are
  modelled by explicit `fresh`/`now` parameters.  No claim depends on the
  distinctness of generated ids, so a positional supply `Nat → String` is used.
-/

namespace Lexicraft

/-- JS `a || b` for a possibly-absent string `a`: `none` (undefined/null) and
the empty string are falsy. -/
def strOr (a : Option String) (b : String) : String :=
  match a with
  | some s => if s = "" then b else s
  | none => b

/-- Truthiness of a possibly-absent JS string. -/
def strTruthy (a : Option String) : Bool :=
  match a with
  | some s => s != ""
  | none => false

/-- JS `a || b` where both operands are possibly-absent strings (the result
feeds a further `||`). -/
def jsOrO (a b : Option String) : Option String :=
  if strTruthy a then a else b

/-- Whitespace set used to model JS `String.prototype.trim` (the exotic
Unicode space characters are not modelled; none occur in the repository's
data). -/
def isJsWs (c : Char) : Bool :=
  c = ' ' || c = '\t' || c = '\n' || c = '\r'

/-- Model of JS `s.trim()`. -/
def jsTrim (s : String) : String :=
  ⟨((s.data.dropWhile isJsWs).reverse.dropWhile isJsWs).reverse⟩

/-- Decimal digit character. -/
def digitChar : Nat → Char
  | 0 => '0' | 1 => '1' | 2 => '2' | 3 => '3' | 4 => '4'
  | 5 => '5' | 6 => '6' | 7 => '7' | 8 => '8' | _ => '9'

/-- Fuel-driven decimal rendering (structural, so it reduces in the kernel). -/
def natCharsGo : Nat → Nat → List Char
  | 0, _ => []
  | fuel + 1, n =>
    if n < 10 then [digitChar n]
    else natCharsGo fuel (n / 10) ++ [digitChar (n % 10)]

/-- Decimal digits of a natural number, most significant first. -/
def natChars (n : Nat) : List Char :=
  natCharsGo (n + 1) n

/-- Decimal rendering of a natural number, as produced by a JS template
literal for a non-negative integer. -/
def natStr (n : Nat) : String :=
  ⟨natChars n⟩

/-- JS `String(n)` for an integer-valued number. -/
def intStr (n : Int) : String :=
  if n < 0 then "-" ++ natStr n.natAbs else natStr n.toNat

/-- Numeric value of a list of decimal digit characters. -/
def digitsVal (l : List Char) : Nat :=
  l.foldl (fun a c => a * 10 + (c.toNat - 48)) 0

/-- Model of the regex test `/^Scene \d+$/.test(title)`. -/
def bareSceneTitle (s : String) : Bool :=
  match s.data with
  | 'S' :: 'c' :: 'e' :: 'n' :: 'e' :: ' ' :: rest =>
    !rest.isEmpty && rest.all Char.isDigit
  | _ => false

/-! ### JS objects as insertion-ordered association lists -/

/-- A JS object used as a string-keyed dictionary. -/
abbrev JsObj (α : Type) := List (String × α)

/-- Property read `o[k]`. -/
def jsGet {α : Type} (o : JsObj α) (k : String) : Option α :=
  (o.find? (fun p => p.1 == k)).map (·.2)

/-- Property write `o[k] = v`: replaces in place if the key exists, otherwise
appends (insertion order). -/
def jsSet {α : Type} (o : JsObj α) (k : String) (v : α) : JsObj α :=
  if (jsGet o k).isSome then
    o.map (fun p => if p.1 == k then (k, v) else p)
  else o ++ [(k, v)]

/-- Is `s` a canonical array-index property key (`"0"`, `"1"`, ..., no leading
zero, value below 2^32 - 1)? -/
def isIndexKey (s : String) : Bool :=
  match s.data with
  | [] => false
  | c :: t =>
    (c :: t).all Char.isDigit && (c != '0' || t.isEmpty) &&
      digitsVal (c :: t) < 4294967295

/-- Numeric value of an index key (0 for non-index keys; only used on index
keys). -/
def keyNat (s : String) : Nat :=
  digitsVal s.data

/-- Insert an entry into a list of index-keyed entries kept in ascending
numeric key order. -/
def insertIdxKey {α : Type} (p : String × α) : List (String × α) → List (String × α)
  | [] => [p]
  | q :: t => if keyNat p.1 ≤ keyNat q.1 then p :: q :: t else q :: insertIdxKey p t

/-- Insertion sort by numeric key value. -/
def sortIdxKeys {α : Type} : List (String × α) → List (String × α)
  | [] => []
  | p :: t => insertIdxKey p (sortIdxKeys t)

/-- Entries of a JS object in own-property enumeration order: array-index keys
ascending first, then the remaining keys in insertion order. -/
def jsEntries {α : Type} (o : JsObj α) : List (String × α) :=
  sortIdxKeys (o.filter (fun p => isIndexKey p.1)) ++
    o.filter (fun p => !isIndexKey p.1)

/-- `Object.keys(o)` in enumeration order. -/
def jsKeys {α : Type} (o : JsObj α) : List String :=
  (jsEntries o).map (·.1)

/-! ### Positional map (the `Array.prototype.map((x, index) => ...)` shape) -/

/-- Worker for `mapPos`, carrying the running index. -/
def mapPosGo {α β : Type} (f : Nat → α → β) : Nat → List α → List β
  | _, [] => []
  | i, a :: t => f i a :: mapPosGo f (i + 1) t

/-- JS `list.map((x, index) => f index x)`. -/
def mapPos {α β : Type} (f : Nat → α → β) (l : List α) : List β :=
  mapPosGo f 0 l

/-! ### Basic lemmas about the helpers -/

theorem strOr_some_ne (s d : String) (h : s ≠ "") : strOr (some s) d = s := by
  simp [strOr, h]

theorem strOr_some_self (s : String) : strOr (some s) "" = s := by
  by_cases h : s = "" <;> simp [strOr, h]

theorem digitChar_isDigit (n : Nat) : (digitChar n).isDigit = true := by
  unfold digitChar
  split <;> decide

theorem natCharsGo_ne_nil (fuel : Nat) : ∀ n, n < fuel → natCharsGo fuel n ≠ [] := by
  induction fuel with
  | zero => intro n h; omega
  | succ fuel ih =>
    intro n h
    rw [natCharsGo]
    split
    · simp
    · simp

theorem natCharsGo_digits (fuel : Nat) :
    ∀ n, n < fuel → (natCharsGo fuel n).all Char.isDigit = true := by
  induction fuel with
  | zero => intro n h; omega
  | succ fuel ih =>
    intro n h
    rw [natCharsGo]
    split
    · simp [digitChar_isDigit]
    · rename_i hn
      have hdiv : n / 10 < fuel := by
        have h1 : 0 < n := by omega
        have := Nat.div_lt_self h1 (by omega : 1 < 10)
        omega
      simp only [List.all_append]
      rw [ih _ hdiv]
      simp [digitChar_isDigit]

theorem natChars_ne_nil (n : Nat) : natChars n ≠ [] :=
  natCharsGo_ne_nil _ _ (Nat.lt_succ_self n)

theorem natChars_digits (n : Nat) : (natChars n).all Char.isDigit = true :=
  natCharsGo_digits _ _ (Nat.lt_succ_self n)

theorem optIsSome_map {α β : Type} (f : α → β) (o : Option α) :
    (o.map f).isSome = o.isSome := by
  cases o <;> rfl

theorem mapPosGo_length {α β : Type} (f : Nat → α → β) (i : Nat) (l : List α) :
    (mapPosGo f i l).length = l.length := by
  induction l generalizing i with
  | nil => rfl
  | cons a t ih => simp [mapPosGo, ih]

theorem mapPos_length {α β : Type} (f : Nat → α → β) (l : List α) :
    (mapPos f l).length = l.length :=
  mapPosGo_length f 0 l

theorem mapPosGo_getElem? {α β : Type} (f : Nat → α → β) (i j : Nat) (l : List α) :
    (mapPosGo f i l)[j]? = (l[j]?).map (f (i + j)) := by
  induction l generalizing i j with
  | nil => simp [mapPosGo]
  | cons a t ih =>
    cases j with
    | zero => simp [mapPosGo]
    | succ j =>
      simp only [mapPosGo, List.getElem?_cons_succ]
      rw [ih (i + 1) j]
      have harith : i + 1 + j = i + (j + 1) := by omega
      rw [harith]

theorem mapPos_getElem? {α β : Type} (f : Nat → α → β) (j : Nat) (l : List α) :
    (mapPos f l)[j]? = (l[j]?).map (f j) := by
  unfold mapPos
  rw [mapPosGo_getElem?]
  simp

theorem mapPosGo_mem {α β : Type} (f : Nat → α → β) (i : Nat) (l : List α) (b : β) :
    b ∈ mapPosGo f i l ↔ ∃ j a, l[j]? = some a ∧ b = f (i + j) a := by
  induction l generalizing i with
  | nil => simp [mapPosGo]
  | cons x t ih =>
    simp only [mapPosGo, List.mem_cons, ih]
    constructor
    · rintro (rfl | ⟨j, a, hj, rfl⟩)
      · exact ⟨0, x, by simp⟩
      · exact ⟨j + 1, a, by simpa using hj, by rw [Nat.add_comm j 1, ← Nat.add_assoc]⟩
    · rintro ⟨j, a, hj, rfl⟩
      cases j with
      | zero => left; simp at hj; simp [hj]
      | succ j =>
        right
        refine ⟨j, a, by simpa using hj, ?_⟩
        rw [Nat.add_comm j 1, ← Nat.add_assoc]

theorem mapPos_mem {α β : Type} (f : Nat → α → β) (l : List α) (b : β) :
    b ∈ mapPos f l ↔ ∃ j a, l[j]? = some a ∧ b = f j a := by
  unfold mapPos
  rw [mapPosGo_mem]
  simp

theorem insertIdxKey_mem {α : Type} (p x : String × α) (l : List (String × α)) :
    x ∈ insertIdxKey p l ↔ x = p ∨ x ∈ l := by
  induction l with
  | nil => simp [insertIdxKey]
  | cons q t ih =>
    rw [insertIdxKey]
    split
    · simp [or_comm, or_assoc, or_left_comm]
    · simp only [List.mem_cons, ih]
      tauto

theorem sortIdxKeys_mem {α : Type} (x : String × α) (l : List (String × α)) :
    x ∈ sortIdxKeys l ↔ x ∈ l := by
  induction l with
  | nil => simp [sortIdxKeys]
  | cons p t ih => simp [sortIdxKeys, insertIdxKey_mem, ih]

theorem jsEntries_mem {α : Type} (x : String × α) (o : JsObj α) :
    x ∈ jsEntries o ↔ x ∈ o := by
  unfold jsEntries
  simp only [List.mem_append, sortIdxKeys_mem, List.mem_filter]
  by_cases h : isIndexKey x.1 <;> simp [h]

theorem jsEntries_ne_nil {α : Type} (o : JsObj α) (h : o ≠ []) :
    jsEntries o ≠ [] := by
  intro hcon
  match o, h with
  | p :: t, _ =>
    have : p ∈ jsEntries (p :: t) := (jsEntries_mem p (p :: t)).2 (by simp)
    rw [hcon] at this
    exact absurd this (List.not_mem_nil _)

theorem jsGet_isSome_of_mem {α : Type} (o : JsObj α) (p : String × α) (h : p ∈ o) :
    (jsGet o p.1).isSome := by
  unfold jsGet
  rw [optIsSome_map, List.find?_isSome]
  exact ⟨p, h, by simp⟩

theorem jsGet_mem {α : Type} (o : JsObj α) (k : String) (v : α)
    (h : jsGet o k = some v) : (k, v) ∈ o := by
  unfold jsGet at h
  match hf : o.find? (fun p => p.1 == k) with
  | none => rw [hf] at h; simp at h
  | some p =>
    rw [hf] at h
    simp only [Option.map_some', Option.some.injEq] at h
    have hmem := List.mem_of_find?_eq_some hf
    have hk := List.find?_some hf
    simp only [beq_iff_eq] at hk
    have : p = (k, v) := by
      cases p; simp_all
    rw [← this]; exact hmem

theorem find?_update_self {α : Type} (k : String) (v : α) (o : List (String × α))
    (h : (o.find? (fun p => p.1 == k)).isSome) :
    (o.map (fun p => if p.1 == k then (k, v) else p)).find? (fun p => p.1 == k) =
      some (k, v) := by
  induction o with
  | nil => simp at h
  | cons q t ih =>
    by_cases hq : q.1 = k
    · have hb : (q.1 == k) = true := by simpa using hq
      simp only [List.map_cons, hb, if_true]
      rw [List.find?_cons_of_pos]
      simp
    · have hb : (q.1 == k) = false := by simpa using hq
      simp only [List.map_cons, hb, Bool.false_eq_true, if_false]
      rw [List.find?_cons_of_neg _ (by simp [hb])]
      apply ih
      rw [List.find?_cons_of_neg _ (by simp [hb])] at h
      exact h

theorem jsGet_jsSet_self {α : Type} (o : JsObj α) (k : String) (v : α) :
    jsGet (jsSet o k v) k = some v := by
  unfold jsSet
  split
  · rename_i hs
    unfold jsGet at hs ⊢
    rw [optIsSome_map] at hs
    rw [find?_update_self k v o hs]
    rfl
  · rename_i hn
    unfold jsGet at hn ⊢
    rw [List.find?_append]
    have hfo : o.find? (fun p => p.1 == k) = none := by
      cases hf : o.find? (fun p => p.1 == k) with
      | none => rfl
      | some p => rw [hf] at hn; simp at hn
    rw [hfo]
    simp [List.find?]

theorem jsGet_jsSet_isSome {α : Type} (o : JsObj α) (k k' : String) (v : α)
    (h : (jsGet o k).isSome) : (jsGet (jsSet o k' v) k).isSome := by
  by_cases hk : k = k'
  · rw [hk, jsGet_jsSet_self]; rfl
  · unfold jsSet
    split
    · unfold jsGet at h ⊢
      rw [optIsSome_map, List.find?_isSome] at h ⊢
      obtain ⟨p, hp, hpk⟩ := h
      simp only [beq_iff_eq] at hpk
      refine ⟨if p.1 == k' then (k', v) else p, List.mem_map_of_mem _ hp, ?_⟩
      have hne : (p.1 == k') = false := by simp [hpk, hk]
      simp only [hne, Bool.false_eq_true, if_false]
      simp [hpk]
    · unfold jsGet at h ⊢
      rw [optIsSome_map, List.find?_isSome] at h ⊢
      obtain ⟨p, hp, hpk⟩ := h
      exact ⟨p, by simp [hp], hpk⟩

theorem jsSet_forall {α : Type} (P : α → Prop) (o : JsObj α) (k : String) (v : α)
    (ho : ∀ p ∈ o, P p.2) (hv : P v) : ∀ p ∈ jsSet o k v, P p.2 := by
  intro p hp
  unfold jsSet at hp
  split at hp
  · obtain ⟨q, hq, hqe⟩ := List.mem_map.1 hp
    by_cases hqk : q.1 == k
    · rw [if_pos hqk] at hqe; rw [← hqe]; exact hv
    · rw [if_neg hqk] at hqe; rw [← hqe]; exact ho q hq
  · rcases List.mem_append.1 hp with h | h
    · exact ho p h
    · simp only [List.mem_singleton] at h
      rw [h]; exact hv

theorem jsSet_keys_subset {α : Type} (o : JsObj α) (k : String) (v : α) :
    ∀ p ∈ jsSet o k v, p.1 = k ∨ p.1 ∈ o.map Prod.fst := by
  intro p hp
  unfold jsSet at hp
  split at hp
  · obtain ⟨q, hq, hqe⟩ := List.mem_map.1 hp
    by_cases hqk : q.1 == k
    · rw [if_pos hqk] at hqe; left; rw [← hqe]
    · rw [if_neg hqk] at hqe; right; rw [← hqe]
      exact List.mem_map_of_mem _ hq
  · rcases List.mem_append.1 hp with h | h
    · right; exact List.mem_map_of_mem _ h
    · simp only [List.mem_singleton] at h
      left; rw [h]

theorem jsGet_eq_some_of_mem_nodup {α : Type} (o : JsObj α) (p : String × α)
    (hnd : (o.map Prod.fst).Nodup) (h : p ∈ o) : jsGet o p.1 = some p.2 := by
  induction o with
  | nil => simp at h
  | cons q t ih =>
    simp only [List.map_cons, List.nodup_cons] at hnd
    rcases List.mem_cons.1 h with rfl | hmem
    · unfold jsGet
      rw [List.find?_cons_of_pos _ (by simp)]
      rfl
    · have hq : q.1 ≠ p.1 := by
        intro he
        exact hnd.1 (he ▸ List.mem_map_of_mem Prod.fst hmem)
      unfold jsGet at ih ⊢
      rw [List.find?_cons_of_neg _ (by simpa using hq)]
      exact ih hnd.2 hmem

theorem jsGet_isSome_iff_mem_keys {α : Type} (o : JsObj α) (k : String) :
    (jsGet o k).isSome ↔ k ∈ o.map Prod.fst := by
  unfold jsGet
  rw [optIsSome_map, List.find?_isSome]
  constructor
  · rintro ⟨p, hp, hpk⟩
    simp only [beq_iff_eq] at hpk
    rw [← hpk]
    exact List.mem_map_of_mem _ hp
  · intro h
    obtain ⟨p, hp, hpk⟩ := List.mem_map.1 h
    exact ⟨p, hp, by simp [hpk]⟩

/-! ## Data model

The canonical `Scene`, `Chapter` and `Store` records mirror the shapes the
SceneBuilder keeps in memory; the `Raw...` types model the loosely-typed
candidate objects arriving from the persisted cache, the backend, or seeds.
-/

/-- A scene `metadata` value before normalization: either a JSON-encoded
string or an object.  Metadata objects are modelled as flat string-to-string
maps (no claim inspects nested metadata values). -/
inductive MetaV where
  | str (s : String)
  | obj (m : List (String × String))
deriving Repr, DecidableEq

/-- Canonical scene record, as produced by `normalizeScene`/`defaultScene`.
`ordering` is optional because `defaultScene` builds an object without an
`ordering` property. -/
structure Scene where
  id : String
  title : String
  type : String
  text : String
  notes : String
  metadata : List (String × String)
  ordering : Option Int
  createdAt : String
  updatedAt : String
deriving Repr, DecidableEq

/-- Loosely-typed scene candidate (the argument of `normalizeScene` and of
`reindexScenes`). -/
structure RawScene where
  id : Option String := none
  dbId : Option String := none
  title : Option String := none
  type : Option String := none
  sceneType : Option String := none
  text : Option String := none
  notes : Option String := none
  metadata : Option MetaV := none
  ordering : Option Int := none
  createdAt : Option String := none
  updatedAt : Option String := none
deriving Repr, DecidableEq

/-- View of a canonical scene as a raw candidate (feeding a store scene back
through `reindexScenes`, as the merge functions do). -/
def Scene.toRaw (s : Scene) : RawScene :=
  { id := some s.id
    dbId := none
    title := some s.title
    type := some s.type
    sceneType := none
    text := some s.text
    notes := some s.notes
    metadata := some (.obj s.metadata)
    ordering := s.ordering
    createdAt := some s.createdAt
    updatedAt := some s.updatedAt }

/-- Character roster entry of the canonical chapter metadata. -/
structure CharEntry where
  name : String
  description : String
deriving Repr, DecidableEq

/-- Canonical chapter metadata (`normalizeChapterMetadata` output).  `hooks`
and `beats` are free-form arrays, modelled as string lists; `number` is the
optional numeric field copied through when present. -/
structure ChapterMeta where
  mainCharacters : List CharEntry
  supportingCharacters : List CharEntry
  hooks : List String
  beats : List String
  number : Option Int
deriving Repr, DecidableEq

/-- The `defaultChapterMetadata()` object. -/
def defaultChapterMetadata : ChapterMeta :=
  ⟨[], [], [], [], none⟩

/-- A raw character-list entry: a falsy value, a bare string, or an object
with possibly-absent `name`/`description` (non-string property values are not
modelled; they behave as their string coercions). -/
inductive RawCharItem where
  | nil
  | str (s : String)
  | obj (name : Option String) (description : Option String)
deriving Repr, DecidableEq

/-- Raw chapter metadata: `notObj` models `null`/`undefined`/non-objects, and
`obj` carries the four list properties (`none` models absent-or-not-an-array)
plus the optional numeric `number`. -/
inductive RawMeta where
  | notObj
  | obj (mainCharacters supportingCharacters : Option (List RawCharItem))
        (hooks beats : Option (List String)) (number : Option Int)
deriving Repr, DecidableEq

/-- Canonical chapter entry of the scene store (part_002 shape, which carries
`metadata`). -/
structure Chapter where
  chapterTitle : String
  outline : String
  scenes : List Scene
  metadata : ChapterMeta
deriving Repr, DecidableEq

/-- Canonical scene store. -/
structure Store where
  chapters : JsObj Chapter
  currentChapterId : String
  currentSceneId : String
deriving Repr, DecidableEq

/-- Raw chapter entry of a persisted store blob.  `scenes = none` models an
absent or non-array `scenes` property. -/
structure RawChapter where
  chapterTitle : Option String := none
  outline : Option String := none
  scenes : Option (List RawScene) := none
  metadata : RawMeta := .notObj
deriving Repr, DecidableEq

/-- Raw store blob passed to `normalizeStore`.  `nonObj` models `null`,
`undefined` and primitives (all returned to the default store); in the `obj`
case `chapters = none` models an absent/falsy `chapters` property (arrays,
which have no `chapters` property, are `obj none ...`), and a chapter value
`none` models a `null` chapter entry (property access on it throws). -/
inductive RawStore where
  | nonObj
  | obj (chapters : Option (JsObj (Option RawChapter)))
        (currentChapterId : Option String)
        (currentSceneId : Option String)
deriving Repr, DecidableEq

/-- Manuscript chapter as supplied to `mergeChaptersFromList` (coarse entity
of the Manuscript Manager).  `id = none` models an absent/null id. -/
structure MChapter where
  id : Option Int := none
  title : Option String := none
  outline : Option String := none
  metadata : Option RawMeta := none
deriving Repr, DecidableEq

/-- One group of the map produced by `groupScenesByChapter`: backend scenes
for one chapter id, with that chapter's title/outline.  The group's scenes
are already normalized scene records; `groupScenesByChapter` sets no
`metadata` property (`none`). -/
structure BackendGroup where
  chapterTitle : String
  outline : String
  scenes : List Scene
  metadata : Option RawMeta := none
deriving Repr, DecidableEq

/-- One element of the flat remote write payload built by
`persistScenesToBackend`. -/
structure SceneRecord where
  chapterId : Int
  title : String
  sceneType : String
  text : String
  notes : String
  ordering : Int
  metadata : List (String × String)
deriving Repr, DecidableEq

/-! ## Metadata string parsing

`normalizeScene` runs `JSON.parse` on a string-valued `metadata` and replaces
a parse failure by `{}`.  The parser below accepts flat JSON objects of
string values without escape sequences; any other input is treated as a
parse failure (yielding `{}`), which matches the repository's metadata, all
of which is flat string maps. -/

/-- Drop leading JSON whitespace. -/
def skipWs : List Char → List Char
  | c :: t => if c = ' ' || c = '\n' || c = '\t' || c = '\r' then skipWs t else c :: t
  | [] => []

/-- Body of a JSON string after the opening quote (no escapes supported). -/
def strBody : List Char → List Char → Option (String × List Char)
  | [], _ => none
  | '"' :: t, acc => some (⟨acc.reverse⟩, t)
  | '\\' :: _, _ => none
  | c :: t, acc => strBody t (c :: acc)

/-- Parse a quoted JSON string. -/
def parseQuoted : List Char → Option (String × List Char)
  | '"' :: t => strBody t []
  | _ => none

/-- Parse the `"k": "v"` entries of a flat object, ending at `}`. -/
def parseEntries : Nat → List Char → Option (List (String × String))
  | 0, _ => none
  | fuel + 1, l =>
    match parseQuoted (skipWs l) with
    | none => none
    | some (k, rest) =>
      match skipWs rest with
      | ':' :: rest2 =>
        match parseQuoted (skipWs rest2) with
        | none => none
        | some (v, rest3) =>
          match skipWs rest3 with
          | ',' :: rest4 => (parseEntries fuel rest4).map (fun es => (k, v) :: es)
          | '}' :: rest5 => if (skipWs rest5).isEmpty then some [(k, v)] else none
          | _ => none
      | _ => none

/-- Model of `JSON.parse` on a metadata string, with parse failure mapped to
the empty object (the `catch` branch of `normalizeScene`). -/
def parseMetaFlat (s : String) : List (String × String) :=
  match skipWs s.data with
  | '{' :: t =>
    match skipWs t with
    | '}' :: r => if (skipWs r).isEmpty then [] else []
    | t2 => (parseEntries (t2.length + 1) t2).getD []
  | _ => []

/-- Resolution of a raw `metadata` property: falsy becomes `{}`, a string is
parsed (failures yield `{}`), an object passes through. -/
def metaOf : Option MetaV → List (String × String)
  | none => []
  | some (.obj m) => m
  | some (.str s) => if s = "" then [] else parseMetaFlat s

/-! ## Embedded source functions -/

/-- Title `Scene {n}` (the bare default title). -/
def sceneDefaultTitle (n : Nat) : String :=
  "Scene " ++ natStr n

/-- Title `{chapterTitle} – Scene {n}` (chapter-prefixed default, en dash). -/
def chapterSceneTitle (ct : String) (n : Nat) : String :=
  ct ++ " – Scene " ++ natStr n

/-- The derived default title `reindexScenes` uses at position `index`
(0-based), i.e. for scene number `index + 1`. -/
def derivedTitle (chapterTitle : Option String) (n : Nat) : String :=
  if strTruthy chapterTitle then chapterSceneTitle (chapterTitle.getD "") n
  else sceneDefaultTitle n

/-- Embedding of `normalizeScene(scene, index)` (part_002 lines 1398-1419;
part_003 lines 735-756 are identical).  `fresh` is the id the generated
`scene-${Date.now()}-...` token would take, `now` the current ISO
timestamp. -/
def normalizeScene (fresh now : String) (scene : RawScene) (index : Nat) : Scene :=
  { id := strOr scene.id (strOr scene.dbId fresh)
    title := strOr scene.title (sceneDefaultTitle (index + 1))
    type := strOr scene.type (strOr scene.sceneType "dialogue")
    text := strOr scene.text ""
    notes := strOr scene.notes ""
    metadata := metaOf scene.metadata
    ordering := some (scene.ordering.getD (index : Int))
    createdAt := strOr scene.createdAt now
    updatedAt := strOr scene.updatedAt now }

/-- One step of `reindexScenes` at position `index`. -/
def reindexOne (fresh : Nat → String) (now : String) (chapterTitle : Option String)
    (index : Nat) (scene : RawScene) : Scene :=
  let normalized := normalizeScene (fresh index) now scene index
  let defaultTitle := sceneDefaultTitle (index + 1)
  let chapterDefault := derivedTitle chapterTitle (index + 1)
  let shouldRenumber :=
    !strTruthy scene.title ||
    scene.title == some defaultTitle ||
    (strTruthy chapterTitle && scene.title == some chapterDefault) ||
    (match scene.title with
     | some t => bareSceneTitle t
     | none => false)
  { normalized with
    title := if shouldRenumber then chapterDefault else normalized.title
    ordering := some (index : Int) }

/-- Embedding of `reindexScenes(chapterTitle, scenes)` (part_002 lines
1421-1437). -/
def reindexScenes (fresh : Nat → String) (now : String) (chapterTitle : Option String)
    (scenes : List RawScene) : List Scene :=
  mapPos (reindexOne fresh now chapterTitle) scenes

/-- Embedding of `defaultScene(index = 0)` with no overrides, the only form
the reconciler calls: generated id, bare default title for index 0, no
`ordering` property. -/
def defaultScene (fresh now : String) : Scene :=
  { id := fresh
    title := sceneDefaultTitle 1
    type := "dialogue"
    text := ""
    notes := ""
    metadata := []
    ordering := none
    createdAt := now
    updatedAt := now }

/-- Embedding of `createDefaultStore()` (part_002 lines 33-47). -/
def createDefaultStore (fresh now : String) : Store :=
  let firstScene := defaultScene fresh now
  { chapters := [("standalone",
      ⟨"Standalone Scenes", "", [firstScene], defaultChapterMetadata⟩)]
    currentChapterId := "standalone"
    currentSceneId := firstScene.id }

/-- Normalization of one raw character-roster entry (the `map`/`filter(Boolean)`
body of `normalizeList`). -/
def normalizeCharItem : RawCharItem → Option CharEntry
  | .nil => none
  | .str s =>
    let name := jsTrim s
    if name = "" then none else some ⟨name, ""⟩
  | .obj nm ds =>
    let name := jsTrim (strOr nm "")
    if name = "" then none else some ⟨name, jsTrim (strOr ds "")⟩

/-- The inner `normalizeList` of `normalizeChapterMetadata`. -/
def normalizeCharList (l : Option (List RawCharItem)) : List CharEntry :=
  match l with
  | none => []
  | some xs => xs.filterMap normalizeCharItem

/-- Embedding of `normalizeChapterMetadata(metadata)` (part_002 lines
49-86). -/
def normalizeChapterMetadata : RawMeta → ChapterMeta
  | .notObj => defaultChapterMetadata
  | .obj mc sc hk bt num =>
    { mainCharacters := normalizeCharList mc
      supportingCharacters := normalizeCharList sc
      hooks := hk.getD []
      beats := bt.getD []
      number := num }

/-- View of canonical chapter metadata as raw metadata (feeding a store
chapter's metadata back through the normalizer, as the merge functions
do). -/
def ChapterMeta.toRaw (m : ChapterMeta) : RawMeta :=
  .obj (some (m.mainCharacters.map (fun c => .obj (some c.name) (some c.description))))
       (some (m.supportingCharacters.map (fun c => .obj (some c.name) (some c.description))))
       (some m.hooks) (some m.beats) m.number

/-- Normalization of one chapter entry inside `normalizeStore`: a non-empty
scene array is reindexed, anything else is replaced by one default scene.
`slot` indexes the fresh-id supply. -/
def normalizeChapterEntry (fresh : Nat → String) (now : String) (slot : Nat)
    (ch : RawChapter) : Chapter :=
  let scenes := match ch.scenes with
    | some ss =>
      if ss.isEmpty then [defaultScene (fresh slot) now]
      else reindexScenes fresh now ch.chapterTitle ss
    | none => [defaultScene (fresh slot) now]
  { chapterTitle := strOr ch.chapterTitle "Untitled Chapter"
    outline := strOr ch.outline ""
    scenes := scenes
    metadata := normalizeChapterMetadata ch.metadata }

/-- The `Object.entries(...).forEach` pass of `normalizeStore`: each chapter
value is normalized in place; a `null` chapter value throws (`none`). -/
def normalizeChapters (fresh : Nat → String) (now : String) :
    Nat → JsObj (Option RawChapter) → Option (JsObj Chapter)
  | _, [] => some []
  | _, (_, none) :: _ => none
  | slot, (k, some ch) :: t =>
    (normalizeChapters fresh now (slot + 1) t).map
      (fun rest => (k, normalizeChapterEntry fresh now slot ch) :: rest)

/-- Embedding of `normalizeStore(store)` (part_002 lines 1335-1357; the
part_003 copy at 677-698 differs only in dropping chapter `metadata`).
Returns `none` where the JS function would throw a `TypeError`. -/
def normalizeStore (fresh : Nat → String) (now : String) : RawStore → Option Store
  | .nonObj => some (createDefaultStore (fresh 0) now)
  | .obj chapters currentChapterId currentSceneId =>
    let rawChapters := chapters.getD []
    match normalizeChapters fresh now 0 rawChapters with
    | none => none
    | some normChapters =>
      if normChapters.isEmpty then some (createDefaultStore (fresh 0) now)
      else
        let curId := strOr currentChapterId ((jsKeys normChapters).headD "")
        match jsGet normChapters curId with
        | none => none
        | some current =>
          let curScene :=
            if strTruthy currentSceneId then currentSceneId
            else current.scenes.head?.map (·.id)
          match curScene with
          | none => none
          | some sid => some ⟨normChapters, curId, sid⟩

/-- One `chapters.forEach` step of `mergeChaptersFromList`: skip falsy
entries and entries without an id; otherwise refresh/create the scene-store
entry and record the id in the keep-set (modelled as an insertion-ordered
list). -/
def applyMChapter (fresh : Nat → String) (now : String)
    (acc : JsObj Chapter × List String) (mc? : Option MChapter) :
    JsObj Chapter × List String :=
  match mc? with
  | none => acc
  | some mc =>
    match mc.id with
    | none => acc
    | some nid =>
      let id := intStr nid
      let chs := acc.1
      let keep := acc.2
      let existing := jsGet chs id
      let baseScenes : List RawScene :=
        match existing with
        | some e =>
          if e.scenes.isEmpty then [(defaultScene (fresh 0) now).toRaw]
          else e.scenes.map Scene.toRaw
        | none => [(defaultScene (fresh 0) now).toRaw]
      let titleOpt := jsOrO mc.title (existing.map (·.chapterTitle))
      let newCh : Chapter :=
        { chapterTitle := strOr titleOpt ("Chapter " ++ id)
          outline := strOr (jsOrO mc.outline (existing.map (·.outline))) ""
          scenes := reindexScenes fresh now titleOpt baseScenes
          metadata := normalizeChapterMetadata
            (match mc.metadata with
             | some m => m
             | none =>
               match existing with
               | some e => e.metadata.toRaw
               | none => .notObj) }
      (jsSet chs id newCh, if id ∈ keep then keep else keep ++ [id])

/-- The `chapters.forEach` + keep-set accumulation of `mergeChaptersFromList`
(the function's first half). -/
def mergeFolded (fresh : Nat → String) (now : String) (store : Store)
    (chapters : List (Option MChapter)) : JsObj Chapter × List String :=
  chapters.foldl (applyMChapter fresh now) (store.chapters, ["standalone"])

/-- The cascade-delete pass: every chapter whose id is not in the keep-set is
removed. -/
def mergeDeleted (fresh : Nat → String) (now : String) (store : Store)
    (chapters : List (Option MChapter)) : JsObj Chapter :=
  (mergeFolded fresh now store chapters).1.filter
    (fun p => (mergeFolded fresh now store chapters).2.contains p.1)

/-- Re-creation of a missing `"standalone"` chapter. -/
def mergeStandaloneFix (fresh : Nat → String) (now : String) (chs : JsObj Chapter) :
    JsObj Chapter :=
  if (jsGet chs "standalone").isSome then chs
  else jsSet chs "standalone"
    ⟨"Standalone Scenes", "", [defaultScene (fresh 0) now], defaultChapterMetadata⟩

/-- The final reindex of the standalone chapter's scenes. -/
def mergeStandaloneReindex (fresh : Nat → String) (now : String) (chs : JsObj Chapter) :
    JsObj Chapter :=
  match jsGet chs "standalone" with
  | some sa =>
    let newScenes := reindexScenes fresh now (some sa.chapterTitle) (sa.scenes.map Scene.toRaw)
    jsSet chs "standalone" { sa with scenes := newScenes }
  | none => chs

/-- The chapter map of the merged store. -/
def mergeChapterMap (fresh : Nat → String) (now : String) (store : Store)
    (chapters : List (Option MChapter)) : JsObj Chapter :=
  mergeStandaloneReindex fresh now
    (mergeStandaloneFix fresh now (mergeDeleted fresh now store chapters))

/-- The re-resolved current chapter id. -/
def mergeCurId (fresh : Nat → String) (now : String) (store : Store)
    (chapters : List (Option MChapter)) : String :=
  if (jsGet (mergeChapterMap fresh now store chapters) store.currentChapterId).isSome
  then store.currentChapterId
  else (((mergeFolded fresh now store chapters).2.filter
    (fun i => i != "standalone")).headD "standalone")

/-- The scene list the current-scene pointer is resolved against
(`updated.chapters[updated.currentChapterId]?.scenes || [defaultScene()]`). -/
def mergeCurScenes (fresh : Nat → String) (now : String) (store : Store)
    (chapters : List (Option MChapter)) : List Scene :=
  match jsGet (mergeChapterMap fresh now store chapters)
      (mergeCurId fresh now store chapters) with
  | some c => c.scenes
  | none => [defaultScene (fresh 0) now]

/-- Embedding of `mergeChaptersFromList(store, chapters)` (part_002 lines
1439-1492), decomposed into the stages above (one per `const`/statement of
the JS function).  Returns `none` where the JS function would throw (only
reachable from stores with an empty scene list). -/
def mergeChaptersFromList (fresh : Nat → String) (now : String) (store : Store)
    (chapters : List (Option MChapter)) : Option Store :=
  let scenes := mergeCurScenes fresh now store chapters
  let found := (scenes.find? (fun s => s.id == store.currentSceneId)).map (·.id)
  if strTruthy found then
    some ⟨mergeChapterMap fresh now store chapters,
      mergeCurId fresh now store chapters, found.getD ""⟩
  else scenes.head?.map (fun s0 =>
    (⟨mergeChapterMap fresh now store chapters,
      mergeCurId fresh now store chapters, s0.id⟩ : Store))

/-- The merged chapter entry `mergeBackendScenes` builds for one backend
group: backend title/outline, the group's scenes reindexed. -/
def backendChapter (fresh : Nat → String) (now : String) (g : BackendGroup) : Chapter :=
  { chapterTitle := g.chapterTitle
    outline := g.outline
    scenes := reindexScenes fresh now (some g.chapterTitle) (g.scenes.map Scene.toRaw)
    metadata := normalizeChapterMetadata (g.metadata.getD .notObj) }

/-- Embedding of `mergeBackendScenes(store, grouped)` (part_002 lines
1375-1396; the part_003 copy at 716-733 mutates the group objects in place
but computes the same store).  Returns `none` where the JS function would
throw (current chapter unresolvable and no chapters at all). -/
def mergeBackendScenes (fresh : Nat → String) (now : String) (store : Store)
    (grouped : JsObj BackendGroup) : Option Store :=
  let mergedCh := (jsEntries grouped).foldl
    (fun acc p => jsSet acc p.1 (backendChapter fresh now p.2))
    store.chapters
  let curId :=
    if (jsGet mergedCh store.currentChapterId).isSome then store.currentChapterId
    else (jsKeys mergedCh).headD ""
  match jsGet mergedCh curId with
  | none => none
  | some ch =>
    some ⟨mergedCh, curId, strOr (ch.scenes.head?.map (·.id)) (fresh 0)⟩

/-! ## JS numeric coercion of chapter keys

`persistScenesToBackend` keeps a chapter exactly when
`Number.isInteger(Number(chapterId))`.  `jsNumberInt` models that test,
returning the integer value when the coercion produces one.  Modelled forms:
whitespace trimming, the empty string (which coerces to 0), an optional
sign, decimal digits, and a decimal point with a fractional part (an integer
iff the fraction is all zeros).  Exponent and radix-prefix notations are not
modelled (treated as non-numeric); no such chapter key is constructible in
the repository, whose keys are `"standalone"` or `String(n)`.  IEEE-754
rounding of huge literals is likewise not modelled. -/

/-- Integer value of a decimal-ish character list, per JS `Number`. -/
def decIntPart (l : List Char) : Option Nat :=
  let intPart := l.takeWhile Char.isDigit
  let rest := l.dropWhile Char.isDigit
  match rest with
  | [] => if intPart.isEmpty then none else some (digitsVal intPart)
  | '.' :: frac =>
    if !frac.all Char.isDigit then none
    else if intPart.isEmpty && frac.isEmpty then none
    else if frac.all (fun c => c = '0') then some (digitsVal intPart)
    else none
  | _ => none

/-- Model of `Number.isInteger(Number(s))`, returning the integer value. -/
def jsNumberInt (s : String) : Option Int :=
  let t := jsTrim s
  if t = "" then some 0
  else
    match t.data with
    | '-' :: rest => (decIntPart rest).map (fun n => -(n : Int))
    | '+' :: rest => (decIntPart rest).map (fun n => (n : Int))
    | l => (decIntPart l).map (fun n => (n : Int))

/-- One flat payload record for scene `s` at array position `i` of chapter
`n`. -/
def sceneRecord (n : Int) (i : Nat) (s : Scene) : SceneRecord :=
  { chapterId := n
    title := s.title
    sceneType := s.type
    text := s.text
    notes := s.notes
    ordering := (i : Int)
    metadata := s.metadata }

/-- Embedding of the payload construction of `persistScenesToBackend(store)`
(part_002 lines 330-352); the network call itself is an external effect and
not modelled. -/
def persistScenesToBackend (store : Store) : List SceneRecord :=
  ((jsEntries store.chapters).map (fun p =>
    match jsNumberInt p.1 with
    | none => []
    | some n => mapPos (fun i s => sceneRecord n i s) p.2.scenes)).flatten

/-! ## Scene type mapping -/

/-- The `sceneTypes` enum (part_002 lines 6-13): value/label pairs. -/
def sceneTypes : List (String × String) :=
  [("dialogue", "Dialogue Scene"),
   ("action", "Action Scene"),
   ("emotional", "Emotional Scene"),
   ("exposition", "Exposition Scene"),
   ("climax", "Climax Scene"),
   ("transition", "Transition Scene")]

/-- The alias table inside `mapSceneType` (part_002 lines 1659-1669). -/
def sceneAliases : List (String × String) :=
  [("general", "dialogue"),
   ("conversation", "dialogue"),
   ("emotional", "emotional"),
   ("exposition", "exposition"),
   ("action", "action"),
   ("setpiece", "action"),
   ("battle", "action"),
   ("transition", "transition"),
   ("climax", "climax")]

/-- ASCII lowercasing, modelling `rawType.toString().toLowerCase()`. -/
def lowerStr (s : String) : String :=
  ⟨s.data.map Char.toLower⟩

/-- Embedding of `mapSceneType(rawType)` (part_002 lines 1650-1672). -/
def mapSceneType (rawType : Option String) : String :=
  match rawType with
  | none => "dialogue"
  | some s =>
    if s = "" then "dialogue"
    else
      let normalized := lowerStr s
      if sceneTypes.any (fun p => p.1 == normalized) then normalized
      else strOr ((sceneAliases.find? (fun p => p.1 == normalized)).map (·.2)) "dialogue"

/-! ## Storage service

Embedding of `storageService` (the full module, `src/unnamed/part_000`; the
shorter `src/src/services/storageService.js` is a subset with identical
behavior for the shared methods).  Payload values are modelled with `JVal`;
a network request is an external effect, represented by `backendRequest`
carrying the path (query strings omitted). -/

/-- JSON-ish value for storage payloads. -/
inductive JVal where
  | null
  | bool (b : Bool)
  | num (n : Int)
  | str (s : String)
  | arr (xs : List JVal)
  | obj (fields : List (String × JVal))

/-- Outcome of a `storageService` call: a locally produced value, a thrown
error, or a delegated network request. -/
inductive CallOutcome where
  | ok (v : JVal)
  | thrown (msg : String)
  | backendRequest (path : String)

/-- Configuration sources of `getBackendBase`. -/
structure BackendConfig where
  geminiBackendBase : Option String
  envBackendUrl : Option String

/-- Model of `base.replace(/\/$/, '')`. -/
def stripTrailingSlash (s : String) : String :=
  match s.data.getLast? with
  | some '/' => ⟨s.data.dropLast⟩
  | _ => s

/-- Embedding of `getBackendBase()`. -/
def getBackendBase (c : BackendConfig) : String :=
  let base := strOr c.geminiBackendBase (strOr c.envBackendUrl "")
  if base = "" then "" else stripTrailingSlash base

/-- Embedding of `storageService.isBackendEnabled()`. -/
def isBackendEnabled (c : BackendConfig) : Bool :=
  getBackendBase c != ""

/-- Embedding of `storageService.loadManuscript`. -/
def svcLoadManuscript (c : BackendConfig) (workspaceId : String) : CallOutcome :=
  if isBackendEnabled c then .backendRequest "/api/storage/manuscript"
  else .ok (.obj [("workspaceId", .str workspaceId), ("chapters", .arr [])])

/-- Embedding of `storageService.saveManuscript`. -/
def svcSaveManuscript (c : BackendConfig) (chapters : JVal) (workspaceId : String) :
    CallOutcome :=
  if isBackendEnabled c then .backendRequest "/api/storage/manuscript"
  else .ok (.obj [("workspaceId", .str workspaceId), ("chapters", chapters)])

/-- Embedding of `storageService.loadScenes`. -/
def svcLoadScenes (c : BackendConfig) (workspaceId : String) : CallOutcome :=
  if isBackendEnabled c then .backendRequest "/api/storage/scenes"
  else .ok (.obj [("workspaceId", .str workspaceId), ("scenes", .arr [])])

/-- Embedding of `storageService.saveScenes`. -/
def svcSaveScenes (c : BackendConfig) (scenes : JVal) (workspaceId : String) :
    CallOutcome :=
  if isBackendEnabled c then .backendRequest "/api/storage/scenes"
  else .ok (.obj [("workspaceId", .str workspaceId), ("scenes", scenes)])

/-- Embedding of `storageService.deleteScenes`. -/
def svcDeleteScenes (c : BackendConfig) (chapterId workspaceId : String) :
    CallOutcome :=
  if isBackendEnabled c then .backendRequest "/api/storage/scenes/:chapterId"
  else .ok (.obj [("workspaceId", .str workspaceId), ("chapterId", .str chapterId)])

/-- Embedding of `storageService.loadShotList`. -/
def svcLoadShotList (c : BackendConfig) (workspaceId : String) : CallOutcome :=
  if isBackendEnabled c then .backendRequest "/api/storage/shot-list"
  else .ok (.obj [("workspaceId", .str workspaceId), ("script", .str ""), ("shots", .arr [])])

/-- Embedding of `storageService.saveShotList`. -/
def svcSaveShotList (c : BackendConfig) (script shots : JVal) (workspaceId : String) :
    CallOutcome :=
  if isBackendEnabled c then .backendRequest "/api/storage/shot-list"
  else .ok (.obj [("workspaceId", .str workspaceId), ("script", script), ("shots", shots)])

/-- Embedding of `storageService.listCharacters`. -/
def svcListCharacters (c : BackendConfig) (workspaceId : String) : CallOutcome :=
  if isBackendEnabled c then .backendRequest "/api/characters"
  else .ok (.arr [])

/-- Embedding of `storageService.saveCharacter`. -/
def svcSaveCharacter (c : BackendConfig) (character : JVal) (workspaceId : String) :
    CallOutcome :=
  if isBackendEnabled c then .backendRequest "/api/characters"
  else .ok character

/-- Embedding of `storageService.deleteCharacter`. -/
def svcDeleteCharacter (c : BackendConfig) (id workspaceId : String) : CallOutcome :=
  if isBackendEnabled c then .backendRequest "/api/characters/:id"
  else .ok (.obj [("success", .bool true)])

/-- Embedding of `storageService.listWorldFacts`. -/
def svcListWorldFacts (c : BackendConfig) (workspaceId : String) : CallOutcome :=
  if isBackendEnabled c then .backendRequest "/api/worlds"
  else .ok (.arr [])

/-- Embedding of `storageService.saveWorldFact`. -/
def svcSaveWorldFact (c : BackendConfig) (fact : JVal) (workspaceId : String) :
    CallOutcome :=
  if isBackendEnabled c then .backendRequest "/api/worlds"
  else .ok fact

/-- Embedding of `storageService.deleteWorldFact`. -/
def svcDeleteWorldFact (c : BackendConfig) (id workspaceId : String) : CallOutcome :=
  if isBackendEnabled c then .backendRequest "/api/worlds/:id"
  else .ok (.obj [("success", .bool true)])

/-- Embedding of `storageService.listProjects`. -/
def svcListProjects (c : BackendConfig) : CallOutcome :=
  if isBackendEnabled c then .backendRequest "/api/projects/"
  else .ok (.arr [.obj [("id", .str "default"), ("name", .str "Local Workspace")]])

/-- Embedding of `storageService.createProject`: the one method that throws
instead of serving a local fallback when no backend is configured. -/
def svcCreateProject (c : BackendConfig) (name : String) : CallOutcome :=
  if isBackendEnabled c then .backendRequest "/api/projects/"
  else .thrown "Project management requires backend connectivity"

/-! ## Canonical-shape predicates -/

/-- Canonicity of a scene record: the string fields that the normalizer
defaults are non-empty (as every normalizer output has them) and the
`ordering` property is present. -/
def Scene.Canonical (s : Scene) : Prop :=
  s.id ≠ "" ∧ s.title ≠ "" ∧ s.type ≠ "" ∧ s.createdAt ≠ "" ∧ s.updatedAt ≠ "" ∧
    s.ordering.isSome

/-- Canonicity of a roster entry: non-empty trimmed name, trimmed
description. -/
def CharEntry.Canonical (c : CharEntry) : Prop :=
  c.name ≠ "" ∧ jsTrim c.name = c.name ∧ jsTrim c.description = c.description

/-- Canonicity of chapter metadata: every roster entry is canonical. -/
def ChapterMeta.Canonical (m : ChapterMeta) : Prop :=
  (∀ c ∈ m.mainCharacters, c.Canonical) ∧ (∀ c ∈ m.supportingCharacters, c.Canonical)

instance (s : Scene) : Decidable s.Canonical := by
  unfold Scene.Canonical; infer_instance

instance (c : CharEntry) : Decidable c.Canonical := by
  unfold CharEntry.Canonical; infer_instance

instance (m : ChapterMeta) : Decidable m.Canonical := by
  unfold ChapterMeta.Canonical; infer_instance

/-! ## Shared lemmas -/

theorem strOr_falsy (a : Option String) (b : String) (h : strTruthy a = false) :
    strOr a b = b := by
  match a with
  | none => rfl
  | some s =>
    have hs : s = "" := by
      by_contra hne
      simp [strTruthy, hne] at h
    simp [strOr, hs]

theorem strOr_truthy (a : Option String) (b : String) (s : String)
    (ha : a = some s) (h : s ≠ "") : strOr a b = s := by
  rw [ha]; exact strOr_some_ne s b h

theorem normalizeCharItem_canonical (c : CharEntry) (h : c.Canonical) :
    normalizeCharItem (.obj (some c.name) (some c.description)) = some c := by
  obtain ⟨hn, htn, htd⟩ := h
  simp only [normalizeCharItem, strOr_some_self, htn, htd]
  simp [hn]

theorem normalizeCharList_canonical (l : List CharEntry) (h : ∀ c ∈ l, c.Canonical) :
    normalizeCharList
      (some (l.map (fun c => .obj (some c.name) (some c.description)))) = l := by
  induction l with
  | nil => rfl
  | cons c t ih =>
    have hc := h c (by simp)
    have ht : ∀ x ∈ t, x.Canonical := fun x hx => h x (by simp [hx])
    simp only [normalizeCharList, List.map_cons, List.filterMap_cons,
      normalizeCharItem_canonical c hc]
    have := ih ht
    simp only [normalizeCharList] at this
    rw [this]

/-- C6 (claim): `normalizeScene` and `normalizeChapterMetadata` are
idempotent — renormalizing an already-canonical scene (at any index, in
particular the one equal to its `ordering`) returns the same scene, and
renormalizing already-canonical chapter metadata returns the same
metadata. -/
theorem C6_normalizers_idempotent (fresh now : String) (s : Scene) (m : ChapterMeta)
    (i : Nat) (hs : s.Canonical) (hm : m.Canonical) :
    normalizeScene fresh now s.toRaw i = s ∧ normalizeChapterMetadata m.toRaw = m := by
  constructor
  · obtain ⟨hid, htitle, htype, hcr, hup, hord⟩ := hs
    obtain ⟨k, hk⟩ := Option.isSome_iff_exists.1 hord
    cases s with
    | mk sid stitle sty stx snt smd sod scr sup =>
      simp only at hid htitle htype hcr hup hk
      subst hk
      unfold normalizeScene Scene.toRaw
      simp [strOr_some_ne _ _ hid, strOr_some_ne _ _ htitle, strOr_some_ne _ _ htype,
        strOr_some_self, strOr_some_ne _ _ hcr, strOr_some_ne _ _ hup, metaOf]
  · obtain ⟨hmc, hsc⟩ := hm
    cases m with
    | mk mc sc hks bts num =>
      simp only at hmc hsc
      simp only [ChapterMeta.toRaw, normalizeChapterMetadata]
      rw [normalizeCharList_canonical _ hmc, normalizeCharList_canonical _ hsc]
      simp

/-- Witness for C6 at a concrete canonical scene and metadata. -/
theorem C6_normalizers_idempotent_witness :
    normalizeScene "gen" "ts"
      (Scene.toRaw ⟨"c1", "My Custom", "action", "b", "n", [("k", "v")], some 3, "t1", "t2"⟩) 3
      = ⟨"c1", "My Custom", "action", "b", "n", [("k", "v")], some 3, "t1", "t2"⟩ ∧
    normalizeChapterMetadata
      (ChapterMeta.toRaw ⟨[⟨"Alice", "hero"⟩], [⟨"Bob", ""⟩], ["h"], ["b"], some 2⟩)
      = ⟨[⟨"Alice", "hero"⟩], [⟨"Bob", ""⟩], ["h"], ["b"], some 2⟩ :=
  C6_normalizers_idempotent "gen" "ts" _ _ 3 (by decide) (by decide)

/-! ## C7: scene `type` handling -/

theorem mapSceneType_mem (t : Option String) :
    mapSceneType t ∈ sceneTypes.map Prod.fst := by
  match t with
  | none => decide
  | some s =>
    simp only [mapSceneType]
    by_cases hs : s = ""
    · simp only [hs, if_true]
      decide
    · rw [if_neg hs]
      by_cases hany : sceneTypes.any (fun p => p.1 == lowerStr s)
      · rw [if_pos hany]
        obtain ⟨p, hp, hpe⟩ := List.any_eq_true.1 hany
        simp only [beq_iff_eq] at hpe
        rw [← hpe]
        exact List.mem_map_of_mem _ hp
      · rw [if_neg hany]
        cases hf : sceneAliases.find? (fun p => p.1 == lowerStr s) with
        | none => simp only [Option.map_none']; rw [strOr]; decide
        | some p =>
          have hmem := List.mem_of_find?_eq_some hf
          have hval : p.2 ∈ sceneTypes.map Prod.fst ∧ p.2 ≠ "" := by
            simp only [sceneAliases, List.mem_cons, List.mem_singleton] at hmem
            rcases hmem with rfl | rfl | rfl | rfl | rfl | rfl | rfl | rfl | rfl | h
            all_goals first | decide | (cases h)
          simp only [Option.map_some']
          rw [strOr_some_ne _ _ hval.2]
          exact hval.1

/-- C7 (corrected): `normalizeScene` does not validate the scene type — it
defaults to `"dialogue"` only when both `type` and `sceneType` are falsy and
otherwise passes the raw value through unchanged; the alias table and the
six-value guarantee live in the separate `mapSceneType` (used on the plan
path), which maps `"battle"` to `"action"`, `"conversation"` to
`"dialogue"`, and any unknown value to `"dialogue"`. -/
theorem C7_sceneType_amended :
    (∀ (fresh now : String) (scene : RawScene) (i : Nat),
      strTruthy scene.type = false → strTruthy scene.sceneType = false →
      (normalizeScene fresh now scene i).type = "dialogue") ∧
    (∀ t, mapSceneType t ∈ sceneTypes.map Prod.fst) ∧
    mapSceneType (some "battle") = "action" ∧
    mapSceneType (some "conversation") = "dialogue" ∧
    mapSceneType (some "mystery") = "dialogue" := by
  refine ⟨?_, mapSceneType_mem, by decide, by decide, by decide⟩
  intro fresh now scene i h1 h2
  unfold normalizeScene
  simp only
  rw [strOr_falsy _ _ h1, strOr_falsy _ _ h2]

/-- Counterexample for C7 as stated: `normalizeScene` leaves the
unrecognized type `"battle"` in place instead of mapping it into the enum
(the claim expects `"action"`). -/
theorem C7_sceneType_cex :
    (normalizeScene "g" "t" { type := some "battle" } 0).type = "battle" ∧
    "battle" ∉ sceneTypes.map Prod.fst ∧ "battle" ≠ "action" := by
  refine ⟨rfl, by decide, by decide⟩

/-- Witness for the amended C7 at concrete inputs. -/
theorem C7_sceneType_amended_witness :
    (normalizeScene "g" "t" {} 0).type = "dialogue" ∧
    mapSceneType (some "battle") = "action" :=
  ⟨C7_sceneType_amended.1 "g" "t" {} 0 rfl rfl, C7_sceneType_amended.2.2.1⟩

/-! ## C9: storage service without a backend URL -/

/-- C9 (corrected): with no backend base URL configured, every
`storageService` method returns a successful local default — except
`createProject`, which throws a backend-connectivity error instead of
falling back. -/
theorem C9_storageService_amended (c : BackendConfig)
    (w name chapterId charId factId : String)
    (chapters scenes script shots character fact : JVal)
    (h : getBackendBase c = "") :
    svcLoadManuscript c w = .ok (.obj [("workspaceId", .str w), ("chapters", .arr [])]) ∧
    svcSaveManuscript c chapters w = .ok (.obj [("workspaceId", .str w), ("chapters", chapters)]) ∧
    svcLoadScenes c w = .ok (.obj [("workspaceId", .str w), ("scenes", .arr [])]) ∧
    svcSaveScenes c scenes w = .ok (.obj [("workspaceId", .str w), ("scenes", scenes)]) ∧
    svcDeleteScenes c chapterId w = .ok (.obj [("workspaceId", .str w), ("chapterId", .str chapterId)]) ∧
    svcLoadShotList c w = .ok (.obj [("workspaceId", .str w), ("script", .str ""), ("shots", .arr [])]) ∧
    svcSaveShotList c script shots w = .ok (.obj [("workspaceId", .str w), ("script", script), ("shots", shots)]) ∧
    svcListCharacters c w = .ok (.arr []) ∧
    svcSaveCharacter c character w = .ok character ∧
    svcDeleteCharacter c charId w = .ok (.obj [("success", .bool true)]) ∧
    svcListWorldFacts c w = .ok (.arr []) ∧
    svcSaveWorldFact c fact w = .ok fact ∧
    svcDeleteWorldFact c factId w = .ok (.obj [("success", .bool true)]) ∧
    svcListProjects c = .ok (.arr [.obj [("id", .str "default"), ("name", .str "Local Workspace")]]) ∧
    svcCreateProject c name = .thrown "Project management requires backend connectivity" := by
  have hd : isBackendEnabled c = false := by
    simp [isBackendEnabled, h]
  simp [svcLoadManuscript, svcSaveManuscript, svcLoadScenes, svcSaveScenes,
    svcDeleteScenes, svcLoadShotList, svcSaveShotList, svcListCharacters,
    svcSaveCharacter, svcDeleteCharacter, svcListWorldFacts, svcSaveWorldFact,
    svcDeleteWorldFact, svcListProjects, svcCreateProject, hd]

/-- Counterexample for C9 as stated: with no backend configured,
`createProject` does not serve a local fallback — it throws a
backend-connectivity error. -/
theorem C9_createProject_cex :
    svcCreateProject ⟨none, none⟩ "New Project" =
      .thrown "Project management requires backend connectivity" := rfl

/-- Witness for the amended C9 at a concrete backend-less configuration. -/
theorem C9_storageService_amended_witness :
    svcLoadScenes ⟨none, none⟩ "default" =
      .ok (.obj [("workspaceId", .str "default"), ("scenes", .arr [])]) ∧
    svcCreateProject ⟨none, none⟩ "p" =
      .thrown "Project management requires backend connectivity" := by
  have h := C9_storageService_amended ⟨none, none⟩ "default" "p" "1" "2" "3"
    .null .null .null .null .null .null rfl
  exact ⟨h.2.2.1, h.2.2.2.2.2.2.2.2.2.2.2.2.2.2⟩

/-! ## C2 / C3: the scene reindexer -/

theorem bareSceneTitle_default (n : Nat) :
    bareSceneTitle (sceneDefaultTitle n) = true := by
  show (!(natChars n).isEmpty && (natChars n).all Char.isDigit) = true
  have h1 : (natChars n).isEmpty = false := by
    cases hc : natChars n with
    | nil => exact absurd hc (natChars_ne_nil n)
    | cons a t => rfl
  rw [h1, natChars_digits n]
  rfl

theorem reindexScenes_getElem? (fresh : Nat → String) (now : String)
    (chapterTitle : Option String) (scenes : List RawScene) (i : Nat) :
    (reindexScenes fresh now chapterTitle scenes)[i]? =
      (scenes[i]?).map (reindexOne fresh now chapterTitle i) := by
  unfold reindexScenes
  exact mapPos_getElem? _ i scenes

theorem reindexScenes_length (fresh : Nat → String) (now : String)
    (chapterTitle : Option String) (scenes : List RawScene) :
    (reindexScenes fresh now chapterTitle scenes).length = scenes.length :=
  mapPos_length _ scenes

/-- The renumbering condition of `reindexScenes`, with the redundant
comparison against the bare default title for the new position absorbed into
the bare-pattern test. -/
theorem renumber_cond_eq (ct title : Option String) (n : Nat) :
    (!strTruthy title || title == some (sceneDefaultTitle n) ||
      (strTruthy ct && title == some (derivedTitle ct n)) ||
      (match title with | some t => bareSceneTitle t | none => false))
    = (!strTruthy title ||
      (match title with | some t => bareSceneTitle t | none => false) ||
      (strTruthy ct && title == some (derivedTitle ct n))) := by
  cases title with
  | none => simp [strTruthy]
  | some t =>
    by_cases hb : t = sceneDefaultTitle n
    · subst hb
      simp [bareSceneTitle_default]
    · have hne : (some t == some (sceneDefaultTitle n)) = false := by
        simp [hb]
      rw [hne]
      simp only [Bool.or_false, Bool.false_or]
      simp only [Bool.or_comm, Bool.or_assoc, Bool.or_left_comm]

/-- C2 (amended): `reindexScenes` sets every output `ordering` to the scene's
0-based array position, and replaces a scene's title with the derived default
for its NEW position exactly when the existing title is falsy, matches the
bare `Scene {n}` pattern (for any `n`), or equals the chapter-prefixed
default for the scene's new position; a chapter-prefixed default for the old
position is treated as a custom title and kept. -/
theorem C2_reindex_amended (fresh : Nat → String) (now : String)
    (ct : Option String) (scenes : List RawScene) (i : Nat)
    (h : i < scenes.length) :
    ∃ r s, scenes[i]? = some r ∧
      (reindexScenes fresh now ct scenes)[i]? = some s ∧
      s.ordering = some (i : Int) ∧
      s.title =
        (if (!strTruthy r.title ||
             (match r.title with | some t => bareSceneTitle t | none => false) ||
             (strTruthy ct && r.title == some (derivedTitle ct (i + 1))))
         then derivedTitle ct (i + 1)
         else strOr r.title (sceneDefaultTitle (i + 1))) := by
  have hr : scenes[i]? = some scenes[i] := List.getElem?_eq_getElem h
  refine ⟨scenes[i], reindexOne fresh now ct i scenes[i], hr, ?_, ?_, ?_⟩
  · rw [reindexScenes_getElem?, hr]
    rfl
  · rfl
  · show (if (!strTruthy scenes[i].title || scenes[i].title == some (sceneDefaultTitle (i + 1)) ||
        (strTruthy ct && scenes[i].title == some (derivedTitle ct (i + 1))) ||
        (match scenes[i].title with | some t => bareSceneTitle t | none => false))
      then derivedTitle ct (i + 1)
      else (normalizeScene (fresh i) now scenes[i] i).title) = _
    rw [renumber_cond_eq]
    by_cases hc : (!strTruthy scenes[i].title ||
        (match scenes[i].title with | some t => bareSceneTitle t | none => false) ||
        (strTruthy ct && scenes[i].title == some (derivedTitle ct (i + 1)))) = true
    · rw [if_pos hc, if_pos hc]
    · rw [if_neg hc, if_neg hc]
      rfl

/-- Witness for the amended C2: a single bare-titled scene under chapter
"Ch" is renumbered to the chapter-prefixed default for position 0. -/
theorem C2_reindex_amended_witness :
    0 < ([({ title := some "Scene 9" } : RawScene)] : List RawScene).length ∧
    ∃ r s, ([({ title := some "Scene 9" } : RawScene)] : List RawScene)[0]? = some r ∧
      (reindexScenes (fun _ => "g") "t" (some "Ch")
        [({ title := some "Scene 9" } : RawScene)])[0]? = some s ∧
      s.ordering = some (0 : Int) ∧
      s.title =
        (if (!strTruthy r.title ||
             (match r.title with | some t => bareSceneTitle t | none => false) ||
             (strTruthy (some "Ch") && r.title == some (derivedTitle (some "Ch") (0 + 1))))
         then derivedTitle (some "Ch") (0 + 1)
         else strOr r.title (sceneDefaultTitle (0 + 1))) :=
  ⟨by decide,
   C2_reindex_amended (fun _ => "g") "t" (some "Ch")
     [({ title := some "Scene 9" } : RawScene)] 0 (by decide)⟩

/-- Counterexample for C2 as stated: a scene titled with the chapter-prefixed
default for its OLD position 1 ("Intro – Scene 2", `ordering` 1) moved to
position 0 is NOT renumbered to "Intro – Scene 1"; the old title is kept. -/
theorem C2_reindex_cex :
    (reindexScenes (fun _ => "g") "t" (some "Intro")
        [({ id := some "a", title := some "Intro – Scene 2", ordering := some 1 } : RawScene)]).map
        (fun s => s.title) = ["Intro – Scene 2"] ∧
    "Intro – Scene 2" ≠ "Intro – Scene 1" :=
  ⟨by decide, by decide⟩

/-- C3 (claim): a scene whose title is non-empty, does not match the bare
`Scene {n}` pattern, and is not the chapter-prefixed default
`"{chapterTitle} – Scene {digits}"` for any number, keeps its exact title
through `reindexScenes` at whatever position it occupies. -/
theorem C3_reindex_preserves_custom (fresh : Nat → String) (now : String)
    (ct : Option String) (scenes : List RawScene) (i : Nat) (r : RawScene) (t : String)
    (hsc : scenes[i]? = some r)
    (htit : r.title = some t)
    (htr : t ≠ "")
    (hbare : bareSceneTitle t = false)
    (hpre : ∀ (c : String) (d : List Char), ct = some c → d.all Char.isDigit = true →
      t ≠ c ++ " – Scene " ++ ⟨d⟩) :
    ((reindexScenes fresh now ct scenes)[i]?).map Scene.title = some t := by
  rw [reindexScenes_getElem?, hsc]
  have htruthy : strTruthy r.title = true := by
    rw [htit]; simp [strTruthy, htr]
  have hmatch : (match r.title with | some u => bareSceneTitle u | none => false) = false := by
    rw [htit]; exact hbare
  have hchap : (strTruthy ct && r.title == some (derivedTitle ct (i + 1))) = false := by
    cases hct : ct with
    | none => rfl
    | some c =>
      by_cases hcv : c = ""
      · subst hcv; rfl
      · have h1 : strTruthy (some c) = true := by simp [strTruthy, hcv]
        have h2 : derivedTitle (some c) (i + 1) = c ++ " – Scene " ++ ⟨natChars (i + 1)⟩ := by
          unfold derivedTitle
          rw [if_pos h1]
          rfl
        have h3 : t ≠ derivedTitle (some c) (i + 1) := by
          rw [h2]
          exact hpre c (natChars (i + 1)) hct (natChars_digits (i + 1))
        rw [htit]
        simp [h3]
  have hdef : (r.title == some (sceneDefaultTitle (i + 1))) = false := by
    rw [htit]
    have : t ≠ sceneDefaultTitle (i + 1) := by
      intro he
      rw [he, bareSceneTitle_default] at hbare
      exact Bool.true_eq_false ▸ hbare
    simp [this]
  show some (if (!strTruthy r.title || r.title == some (sceneDefaultTitle (i + 1)) ||
      (strTruthy ct && r.title == some (derivedTitle ct (i + 1))) ||
      (match r.title with | some u => bareSceneTitle u | none => false))
    then derivedTitle ct (i + 1)
    else (normalizeScene (fresh i) now r i).title) = some t
  rw [htruthy, hmatch, hchap, hdef]
  simp only [Bool.not_true, Bool.or_false, Bool.false_or, if_false]
  show some (strOr r.title (sceneDefaultTitle (i + 1))) = some t
  rw [htit, strOr_some_ne _ _ htr]

/-- Witness for C3: the custom title "Zebra" under chapter "Intro" at
position 0 survives reindexing untouched. -/
theorem C3_reindex_preserves_custom_witness :
    ((reindexScenes (fun _ => "g") "t" (some "Intro")
      [({ id := some "a", title := some "Zebra" } : RawScene)])[0]?).map Scene.title
      = some "Zebra" :=
  C3_reindex_preserves_custom (fun _ => "g") "t" (some "Intro")
    [({ id := some "a", title := some "Zebra" } : RawScene)] 0
    { id := some "a", title := some "Zebra" } "Zebra" (by decide) rfl (by decide) (by decide)
    (by
      intro c d hc hd he
      have hc5 : "Intro" = c := by injection hc
      subst hc5
      have hlen : ("Zebra" : String).length = ("Intro" ++ " – Scene " ++ (⟨d⟩ : String)).length := by
        rw [he]
      rw [String.length_append, String.length_append] at hlen
      have e1 : ("Zebra" : String).length = 5 := rfl
      have e2 : ("Intro" : String).length = 5 := rfl
      have e3 : (" – Scene " : String).length = 9 := rfl
      omega)

/-! ## C8: the remote persistence payload -/

/-- C8 (amended): the remote payload contains exactly the scene records of
those chapters whose key coerces to an integer under JS `Number` (which also
admits keys such as `""`, whitespace, or `"7.0"` — not only canonical
`String(n)` forms), each record tagged with that integer and its array
position as `ordering`; every other chapter key — in particular
`"standalone"` — contributes nothing. -/
theorem C8_persist_payload_amended (store : Store) (r : SceneRecord) :
    (r ∈ persistScenesToBackend store ↔
      ∃ (k : String) (ch : Chapter) (i : Nat) (s : Scene),
        (k, ch) ∈ store.chapters ∧ jsNumberInt k = some r.chapterId ∧
        ch.scenes[i]? = some s ∧ r = sceneRecord r.chapterId i s) ∧
    jsNumberInt "standalone" = none := by
  refine ⟨?_, by decide⟩
  unfold persistScenesToBackend
  rw [List.mem_flatten]
  constructor
  · rintro ⟨blk, hblk, hr⟩
    obtain ⟨p, hp, hpe⟩ := List.mem_map.1 hblk
    cases hn : jsNumberInt p.1 with
    | none =>
      rw [hn] at hpe
      simp only at hpe
      rw [← hpe] at hr
      exact absurd hr (List.not_mem_nil r)
    | some n =>
      rw [hn] at hpe
      simp only at hpe
      rw [← hpe] at hr
      obtain ⟨i, s, hi, hre⟩ := (mapPos_mem _ _ _).1 hr
      have hcid : r.chapterId = n := by rw [hre]; rfl
      refine ⟨p.1, p.2, i, s, (jsEntries_mem p _).1 hp, ?_, hi, ?_⟩
      · rw [hcid]; exact hn
      · rw [hcid]; exact hre
  · rintro ⟨k, ch, i, s, hmem, hn, hi, hre⟩
    refine ⟨mapPos (fun j u => sceneRecord r.chapterId j u) ch.scenes, ?_, ?_⟩
    · apply List.mem_map.2
      refine ⟨(k, ch), (jsEntries_mem _ _).2 hmem, ?_⟩
      simp only [hn]
    · exact (mapPos_mem _ _ _).2 ⟨i, s, hi, hre⟩

/-- Concrete scene used by the C8 counterexample. -/
def c8Scene : Scene :=
  ⟨"s1", "Opening", "dialogue", "x", "", [], some 0, "t0", "t0"⟩

/-- Concrete store used by the C8 counterexample: one chapter keyed by the
empty string (not the string form of any integer, yet `Number("")` is 0). -/
def c8Store : Store :=
  { chapters := [("", ⟨"E", "", [c8Scene], defaultChapterMetadata⟩)]
    currentChapterId := ""
    currentSceneId := "s1" }

/-- Counterexample for C8 as stated: the chapter keyed `""` — whose key is
not the string form of an integer (`String(0)` is `"0"`) — contributes a
record tagged with chapter id 0, because `Number("")` is `0`. -/
theorem C8_persist_payload_cex :
    persistScenesToBackend c8Store = [sceneRecord 0 0 c8Scene] ∧
    intStr 0 = "0" ∧ "" ≠ "0" :=
  ⟨by decide, by decide, by decide⟩

/-! ## C10: `mergeBackendScenes` resets the current-scene pointer -/

theorem reindexOne_id (fresh : Nat → String) (now : String) (ct : Option String)
    (j : Nat) (r : RawScene) :
    (reindexOne fresh now ct j r).id = strOr r.id (strOr r.dbId (fresh j)) := rfl

/-- A chapter invariant: non-empty scene list with non-empty scene ids. -/
def ChapterIds (c : Chapter) : Prop :=
  c.scenes ≠ [] ∧ ∀ s ∈ c.scenes, s.id ≠ ""

instance (c : Chapter) : Decidable (ChapterIds c) := by
  unfold ChapterIds; infer_instance

theorem mem_of_getElem?_some {α : Type} (l : List α) (i : Nat) (a : α)
    (h : l[i]? = some a) : a ∈ l := by
  induction l generalizing i with
  | nil => simp at h
  | cons x t ih =>
    cases i with
    | zero =>
      simp only [List.getElem?_cons_zero, Option.some.injEq] at h
      simp [h]
    | succ i =>
      simp only [List.getElem?_cons_succ] at h
      exact List.mem_cons_of_mem _ (ih i h)

theorem reindex_toRaw_ids (fresh : Nat → String) (now : String) (ct : Option String)
    (l : List Scene) (h : ∀ s ∈ l, s.id ≠ "") :
    ∀ x ∈ reindexScenes fresh now ct (l.map Scene.toRaw), x.id ≠ "" := by
  intro x hx
  obtain ⟨j, r, hj, hxe⟩ := (mapPos_mem _ _ _).1 hx
  rw [List.getElem?_map] at hj
  cases hs : l[j]? with
  | none => rw [hs] at hj; simp at hj
  | some s =>
    rw [hs] at hj
    simp only [Option.map_some', Option.some.injEq] at hj
    have hsm : s ∈ l := mem_of_getElem?_some l j s hs
    have hid := h s hsm
    rw [hxe, ← hj, reindexOne_id]
    show strOr (some s.id) _ ≠ ""
    rw [strOr_some_ne _ _ hid]
    exact hid

theorem backendChapter_ids (fresh : Nat → String) (now : String) (g : BackendGroup)
    (h1 : g.scenes ≠ []) (h2 : ∀ s ∈ g.scenes, s.id ≠ "") :
    ChapterIds (backendChapter fresh now g) := by
  constructor
  · show reindexScenes fresh now (some g.chapterTitle) (g.scenes.map Scene.toRaw) ≠ []
    intro he
    have := reindexScenes_length fresh now (some g.chapterTitle) (g.scenes.map Scene.toRaw)
    rw [he] at this
    simp only [List.length_nil, List.length_map] at this
    exact h1 (List.length_eq_zero.1 this.symm)
  · exact reindex_toRaw_ids fresh now _ g.scenes h2

theorem jsSet_ne_nil {α : Type} (o : JsObj α) (k : String) (v : α) :
    jsSet o k v ≠ [] := by
  unfold jsSet
  split
  · rename_i hs
    cases o with
    | nil =>
      unfold jsGet at hs
      simp at hs
    | cons p t => simp
  · simp

theorem foldl_jsSet_forall {β : Type} (P : Chapter → Prop)
    (f : String × β → Chapter) (l : List (String × β)) :
    ∀ (init : JsObj Chapter), (∀ p ∈ init, P p.2) → (∀ p ∈ l, P (f p)) →
    ∀ p ∈ l.foldl (fun acc q => jsSet acc q.1 (f q)) init, P p.2 := by
  induction l with
  | nil => intro init hinit _ p hp; exact hinit p hp
  | cons q t ih =>
    intro init hinit hf p hp
    refine ih (jsSet init q.1 (f q)) ?_ (fun x hx => hf x (by simp [hx])) p hp
    exact jsSet_forall P init q.1 (f q) hinit (hf q (by simp))

theorem foldl_jsSet_ne_nil {β : Type} (f : String × β → Chapter)
    (l : List (String × β)) :
    ∀ (init : JsObj Chapter), (init ≠ [] ∨ l ≠ []) →
    l.foldl (fun acc q => jsSet acc q.1 (f q)) init ≠ [] := by
  induction l with
  | nil =>
    intro init h
    rcases h with h | h
    · exact h
    · exact absurd rfl h
  | cons q t ih =>
    intro init _
    exact ih (jsSet init q.1 (f q)) (Or.inl (jsSet_ne_nil init q.1 (f q)))

/-- First scene of the C10 contrast store. -/
def c10SceneA : Scene := ⟨"sA", "First", "dialogue", "", "", [], some 0, "t", "t"⟩

/-- Second scene of the C10 contrast store: the selected one. -/
def c10SceneB : Scene := ⟨"sB", "Second", "dialogue", "", "", [], some 1, "t", "t"⟩

/-- Store used for the C10 contrast conjunct: the current scene is the
second scene of the current chapter. -/
def c10Store : Store :=
  { chapters := [("standalone",
      ⟨"Standalone Scenes", "", [c10SceneA, c10SceneB], defaultChapterMetadata⟩)]
    currentChapterId := "standalone"
    currentSceneId := "sB" }

/-- C10 (claim): `mergeBackendScenes` unconditionally sets the returned
store's `currentSceneId` to the id of the first scene of the resulting
current chapter — the previously selected pointer is discarded even when
that scene still exists — whereas `mergeChaptersFromList` preserves a
still-resolving `currentSceneId` (shown on a concrete store whose selected
scene is the second one). -/
theorem C10_mergeBackendScenes_resets_scene (fresh : Nat → String) (now : String)
    (store : Store) (grouped : JsObj BackendGroup)
    (hwf : ∀ p ∈ store.chapters, ChapterIds p.2)
    (hg0 : grouped ≠ [])
    (hg : ∀ p ∈ grouped, p.2.scenes ≠ [] ∧ ∀ s ∈ p.2.scenes, s.id ≠ "") :
    (∃ u ch s0, mergeBackendScenes fresh now store grouped = some u ∧
      jsGet u.chapters u.currentChapterId = some ch ∧
      ch.scenes.head? = some s0 ∧ u.currentSceneId = s0.id) ∧
    (mergeChaptersFromList (fun _ => "gid") "ts" c10Store []).map
      (fun u => u.currentSceneId) = some "sB" := by
  refine ⟨?_, by decide⟩
  unfold mergeBackendScenes
  simp only
  set mergedCh := (jsEntries grouped).foldl
    (fun acc p => jsSet acc p.1 (backendChapter fresh now p.2)) store.chapters with hmerged
  have hinv : ∀ p ∈ mergedCh, ChapterIds p.2 := by
    rw [hmerged]
    refine foldl_jsSet_forall ChapterIds (fun p => backendChapter fresh now p.2)
      (jsEntries grouped) store.chapters hwf ?_
    intro p hp
    have hpm := (jsEntries_mem p grouped).1 hp
    exact backendChapter_ids fresh now p.2 (hg p hpm).1 (hg p hpm).2
  have hne : mergedCh ≠ [] := by
    rw [hmerged]
    exact foldl_jsSet_ne_nil _ (jsEntries grouped) store.chapters
      (Or.inr (jsEntries_ne_nil grouped hg0))
  set curId := if (jsGet mergedCh store.currentChapterId).isSome
    then store.currentChapterId else (jsKeys mergedCh).headD "" with hcur
  have hresolve : ∃ ch, jsGet mergedCh curId = some ch := by
    rw [hcur]
    split
    · rename_i hs
      exact Option.isSome_iff_exists.1 hs
    · cases hje : jsEntries mergedCh with
      | nil => exact absurd hje (jsEntries_ne_nil mergedCh hne)
      | cons q rest =>
        have hq : q ∈ mergedCh := (jsEntries_mem q mergedCh).1 (by rw [hje]; simp)
        have hk : (jsKeys mergedCh).headD "" = q.1 := by
          unfold jsKeys
          rw [hje]
          rfl
        rw [hk]
        exact Option.isSome_iff_exists.1 (jsGet_isSome_of_mem mergedCh q hq)
  obtain ⟨ch, hch⟩ := hresolve
  have hchids : ChapterIds ch := hinv (curId, ch) (jsGet_mem mergedCh curId ch hch)
  cases hscs : ch.scenes with
  | nil => exact absurd hscs hchids.1
  | cons s0 srest =>
    have hid0 : s0.id ≠ "" := hchids.2 s0 (by rw [hscs]; simp)
    refine ⟨⟨mergedCh, curId, strOr (ch.scenes.head?.map (·.id)) (fresh 0)⟩, ch, s0, ?_, hch, ?_, ?_⟩
    · rw [hch]
    · rw [hscs]; rfl
    · show strOr (ch.scenes.head?.map (·.id)) (fresh 0) = s0.id
      rw [hscs]
      show strOr (some s0.id) (fresh 0) = s0.id
      exact strOr_some_ne _ _ hid0

/-- Witness for C10 on a concrete store and backend group: the still-valid
selected scene pointer "sB" is replaced by the first scene of the merged
current chapter. -/
theorem C10_mergeBackendScenes_resets_scene_witness :
    (∃ u ch s0, mergeBackendScenes (fun _ => "g") "t" c10Store
        [("standalone", ⟨"Standalone Scenes", "", [c10SceneA, c10SceneB], none⟩)] = some u ∧
      jsGet u.chapters u.currentChapterId = some ch ∧
      ch.scenes.head? = some s0 ∧ u.currentSceneId = s0.id) ∧
    (mergeChaptersFromList (fun _ => "gid") "ts" c10Store []).map
      (fun u => u.currentSceneId) = some "sB" :=
  C10_mergeBackendScenes_resets_scene (fun _ => "g") "t" c10Store
    [("standalone", ⟨"Standalone Scenes", "", [c10SceneA, c10SceneB], none⟩)]
    (by decide) (by decide) (by decide)

/-! ## C1: the store normalizer -/

theorem normalizeChapterEntry_ne_nil (fresh : Nat → String) (now : String)
    (slot : Nat) (ch : RawChapter) :
    (normalizeChapterEntry fresh now slot ch).scenes ≠ [] := by
  show (match ch.scenes with
    | some ss =>
      if ss.isEmpty then [defaultScene (fresh slot) now]
      else reindexScenes fresh now ch.chapterTitle ss
    | none => [defaultScene (fresh slot) now]) ≠ []
  cases hs : ch.scenes with
  | none => simp
  | some ss =>
    simp only
    by_cases he : ss.isEmpty
    · rw [if_pos he]; simp
    · rw [if_neg he]
      intro hnil
      have hlen := reindexScenes_length fresh now ch.chapterTitle ss
      rw [hnil] at hlen
      have : ss = [] := List.length_eq_zero.1 hlen.symm
      rw [this] at he
      exact he rfl

theorem normalizeChapters_some (fresh : Nat → String) (now : String) :
    ∀ (raw : JsObj (Option RawChapter)) (slot : Nat),
    (∀ p ∈ raw, p.2.isSome) →
    ∃ m, normalizeChapters fresh now slot raw = some m ∧
      m.map Prod.fst = raw.map Prod.fst ∧ ∀ p ∈ m, p.2.scenes ≠ [] := by
  intro raw
  induction raw with
  | nil => intro slot _; exact ⟨[], rfl, rfl, by simp⟩
  | cons q t ih =>
    intro slot hall
    match q, hall q (by simp) with
    | (k, none), hq => simp at hq
    | (k, some ch), _ =>
      obtain ⟨m, hm, hk, hs⟩ := ih (slot + 1) (fun p hp => hall p (by simp [hp]))
      refine ⟨(k, normalizeChapterEntry fresh now slot ch) :: m, ?_, ?_, ?_⟩
      · show (normalizeChapters fresh now (slot + 1) t).map
          (fun rest => (k, normalizeChapterEntry fresh now slot ch) :: rest) = _
        rw [hm]
        rfl
      · simp [hk]
      · intro p hp
        rcases List.mem_cons.1 hp with rfl | hpm
        · exact normalizeChapterEntry_ne_nil fresh now slot ch
        · exact hs p hpm

/-- Inputs on which `normalizeStore` cannot hit a throwing path: every
chapter value is non-null and a truthy `currentChapterId` names an existing
chapter key (when any chapters are present). -/
def RawStore.Benign : RawStore → Prop
  | .nonObj => True
  | .obj chs cur _ =>
    (∀ p ∈ chs.getD [], p.2.isSome) ∧
    (∀ c, cur = some c → c ≠ "" → chs.getD [] ≠ [] →
      c ∈ (chs.getD []).map Prod.fst)

/-- Is the raw blob's `currentSceneId` falsy (so that the normalizer must
derive it)? -/
def RawStore.currentSceneFalsy : RawStore → Bool
  | .nonObj => true
  | .obj _ _ sc => !strTruthy sc

/-- C1 (amended): on benign inputs — chapter values non-null, a truthy
`currentChapterId` resolving to an existing key — `normalizeStore` returns a
store in which every chapter has a non-empty scene list, `currentChapterId`
resolves to an existing chapter, and a falsy input `currentSceneId` is
defaulted to the first scene of the current chapter.  It does NOT create a
missing `"standalone"` chapter, throws on a stale truthy `currentChapterId`,
and keeps a stale truthy `currentSceneId` (see the counterexample). -/
theorem C1_normalizeStore_amended (fresh : Nat → String) (now : String)
    (rs : RawStore) (hb : rs.Benign) :
    ∃ s ch, normalizeStore fresh now rs = some s ∧
      (∀ p ∈ s.chapters, p.2.scenes ≠ []) ∧
      jsGet s.chapters s.currentChapterId = some ch ∧
      (rs.currentSceneFalsy = true →
        ∃ s0, ch.scenes.head? = some s0 ∧ s.currentSceneId = s0.id) := by
  cases rs with
  | nonObj =>
    refine ⟨createDefaultStore (fresh 0) now,
      ⟨"Standalone Scenes", "", [defaultScene (fresh 0) now], defaultChapterMetadata⟩,
      rfl, ?_, rfl, ?_⟩
    · intro p hp
      simp only [createDefaultStore, List.mem_singleton] at hp
      rw [hp]
      simp
    · intro _
      exact ⟨defaultScene (fresh 0) now, rfl, rfl⟩
  | obj chs cur sc =>
    obtain ⟨hnull, hkey⟩ := hb
    obtain ⟨m, hm, hkeys, hscenes⟩ := normalizeChapters_some fresh now (chs.getD []) 0 hnull
    by_cases hme : m.isEmpty
    · have hstore : normalizeStore fresh now (.obj chs cur sc) =
          some (createDefaultStore (fresh 0) now) := by
        simp only [normalizeStore]
        rw [hm]
        simp only [hme, if_true]
      refine ⟨createDefaultStore (fresh 0) now,
        ⟨"Standalone Scenes", "", [defaultScene (fresh 0) now], defaultChapterMetadata⟩,
        hstore, ?_, rfl, ?_⟩
      · intro p hp
        simp only [createDefaultStore, List.mem_singleton] at hp
        rw [hp]
        simp
      · intro _
        exact ⟨defaultScene (fresh 0) now, rfl, rfl⟩
    · have hmne : m ≠ [] := by
        intro hnil
        rw [hnil] at hme
        exact hme rfl
      have hresolve : ∃ ch, jsGet m (strOr cur ((jsKeys m).headD "")) = some ch := by
        by_cases hct : strTruthy cur
        · obtain ⟨c, hc⟩ : ∃ c, cur = some c := by
            cases cur with
            | none => simp [strTruthy] at hct
            | some c => exact ⟨c, rfl⟩
          have hcne : c ≠ "" := by
            rw [hc] at hct
            simpa [strTruthy] using hct
          have hraw : chs.getD [] ≠ [] := by
            intro hnil
            rw [hnil] at hkeys
            simp only [List.map_nil, List.map_eq_nil_iff] at hkeys
            exact hmne hkeys
          have hmem : c ∈ m.map Prod.fst := by
            rw [hkeys]
            exact hkey c hc hcne hraw
          rw [strOr_truthy cur _ c hc hcne]
          exact Option.isSome_iff_exists.1 ((jsGet_isSome_iff_mem_keys m c).2 hmem)
        · rw [strOr_falsy cur _ (by simpa using hct)]
          cases hje : jsEntries m with
          | nil => exact absurd hje (jsEntries_ne_nil m hmne)
          | cons q rest =>
            have hq : q ∈ m := (jsEntries_mem q m).1 (by rw [hje]; simp)
            have hk : (jsKeys m).headD "" = q.1 := by
              unfold jsKeys
              rw [hje]
              rfl
            rw [hk]
            exact Option.isSome_iff_exists.1 (jsGet_isSome_of_mem m q hq)
      obtain ⟨ch, hch⟩ := hresolve
      have hchne : ch.scenes ≠ [] :=
        hscenes (strOr cur ((jsKeys m).headD ""), ch)
          (jsGet_mem m _ ch hch)
      obtain ⟨s0, srest, hs0⟩ : ∃ s0 srest, ch.scenes = s0 :: srest := by
        cases hcs : ch.scenes with
        | nil => exact absurd hcs hchne
        | cons a t => exact ⟨a, t, rfl⟩
      by_cases hsc : strTruthy sc
      · obtain ⟨v, hv⟩ : ∃ v, sc = some v := by
          cases sc with
          | none => simp [strTruthy] at hsc
          | some v => exact ⟨v, rfl⟩
        subst hv
        have hstore : normalizeStore fresh now (.obj chs cur (some v)) =
            some ⟨m, strOr cur ((jsKeys m).headD ""), v⟩ := by
          simp only [normalizeStore]
          rw [hm]
          simp only [hme, Bool.false_eq_true, if_false]
          rw [hch]
          simp only [hsc, if_true]
        refine ⟨_, ch, hstore, hscenes, hch, ?_⟩
        intro hfal
        simp [RawStore.currentSceneFalsy, hsc] at hfal
      · have hstore : normalizeStore fresh now (.obj chs cur sc) =
            some ⟨m, strOr cur ((jsKeys m).headD ""), s0.id⟩ := by
          simp only [normalizeStore]
          rw [hm]
          simp only [hme, Bool.false_eq_true, if_false]
          rw [hch]
          simp only [hsc, Bool.false_eq_true, if_false, hs0]
          rfl
        refine ⟨_, ch, hstore, hscenes, hch, ?_⟩
        intro _
        exact ⟨s0, by rw [hs0]; rfl, rfl⟩

/-- Raw chapter used by the C1 counterexample. -/
def c1Chapter : RawChapter :=
  { chapterTitle := some "A", scenes := some [{ id := some "s1" }] }

/-- Counterexample for C1 as stated: (a) on a store whose truthy
`currentChapterId` `"x"` does not name an existing chapter, `normalizeStore`
throws (`none`) instead of repairing the pointer; (b) on a store whose only
chapter key is `"5"`, the result has no `"standalone"` chapter, violating
the §3 invariant the claim asserts. -/
theorem C1_normalizeStore_cex :
    normalizeStore (fun _ => "g") "t"
      (.obj (some [("5", some c1Chapter)]) (some "x") none) = none ∧
    (normalizeStore (fun _ => "g") "t"
      (.obj (some [("5", some c1Chapter)]) none none)).map
      (fun s => jsGet s.chapters "standalone") = some none :=
  ⟨by decide, by decide⟩

/-- Witness for the amended C1 at a concrete benign input. -/
theorem C1_normalizeStore_amended_witness :
    ∃ s ch, normalizeStore (fun _ => "g") "t"
        (.obj (some [("5", some c1Chapter)]) (some "5") none) = some s ∧
      (∀ p ∈ s.chapters, p.2.scenes ≠ []) ∧
      jsGet s.chapters s.currentChapterId = some ch ∧
      ((RawStore.obj (some [("5", some c1Chapter)]) (some "5") none).currentSceneFalsy = true →
        ∃ s0, ch.scenes.head? = some s0 ∧ s.currentSceneId = s0.id) :=
  C1_normalizeStore_amended (fun _ => "g") "t"
    (.obj (some [("5", some c1Chapter)]) (some "5") none)
    ⟨by decide, by
      intro c hc hne hnn
      have h5 : "5" = c := by injection hc
      rw [← h5]
      decide⟩

/-! ## C4 / C5: `mergeChaptersFromList` -/

theorem reindexScenes_ne_nil (fresh : Nat → String) (now : String)
    (ct : Option String) (l : List RawScene) (h : l ≠ []) :
    reindexScenes fresh now ct l ≠ [] := by
  intro hnil
  have hlen := reindexScenes_length fresh now ct l
  rw [hnil] at hlen
  exact h (List.length_eq_zero.1 hlen.symm)

theorem applyMChapter_none (fresh : Nat → String) (now : String)
    (acc : JsObj Chapter × List String) :
    applyMChapter fresh now acc none = acc := rfl

theorem applyMChapter_noId (fresh : Nat → String) (now : String)
    (acc : JsObj Chapter × List String) (mc : MChapter) (h : mc.id = none) :
    applyMChapter fresh now acc (some mc) = acc := by
  simp only [applyMChapter, h]

theorem applyMChapter_someId (fresh : Nat → String) (now : String)
    (acc : JsObj Chapter × List String) (mc : MChapter) (nid : Int)
    (h : mc.id = some nid) :
    ∃ newCh, applyMChapter fresh now acc (some mc) =
      (jsSet acc.1 (intStr nid) newCh,
        if intStr nid ∈ acc.2 then acc.2 else acc.2 ++ [intStr nid]) ∧
      newCh.scenes ≠ [] := by
  simp only [applyMChapter, h]
  refine ⟨_, rfl, ?_⟩
  apply reindexScenes_ne_nil
  cases he : jsGet acc.1 (intStr nid) with
  | none => simp
  | some e =>
    simp only
    by_cases hemp : e.scenes.isEmpty
    · rw [if_pos hemp]; simp
    · rw [if_neg hemp]
      intro hnil
      rw [List.map_eq_nil_iff] at hnil
      rw [hnil] at hemp
      exact hemp rfl

theorem mergeFold_spec (fresh : Nat → String) (now : String) :
    ∀ (l : List (Option MChapter)) (acc : JsObj Chapter × List String),
    (∀ p ∈ acc.1, p.2.scenes ≠ []) →
    (∀ k ∈ acc.2, k ∈ (l.foldl (applyMChapter fresh now) acc).2) ∧
    (∀ k ∈ (l.foldl (applyMChapter fresh now) acc).2,
      k ∈ acc.2 ∨ ∃ mc n, some mc ∈ l ∧ mc.id = some n ∧ k = intStr n) ∧
    (∀ k, (jsGet acc.1 k).isSome →
      (jsGet (l.foldl (applyMChapter fresh now) acc).1 k).isSome) ∧
    (∀ mc n, some mc ∈ l → mc.id = some n →
      (jsGet (l.foldl (applyMChapter fresh now) acc).1 (intStr n)).isSome ∧
      intStr n ∈ (l.foldl (applyMChapter fresh now) acc).2) ∧
    (∀ p ∈ (l.foldl (applyMChapter fresh now) acc).1, p.2.scenes ≠ []) := by
  intro l
  induction l with
  | nil =>
    intro acc hacc
    refine ⟨fun k hk => hk, fun k hk => Or.inl hk, fun k hk => hk, ?_, hacc⟩
    intro mc n hmc _
    exact absurd hmc (List.not_mem_nil _)
  | cons mc? t ih =>
    intro acc hacc
    have hstep : ∃ st, applyMChapter fresh now acc mc? = st ∧
        (∀ k ∈ acc.2, k ∈ st.2) ∧
        (∀ k ∈ st.2, k ∈ acc.2 ∨ ∃ mc n, mc? = some mc ∧ mc.id = some n ∧ k = intStr n) ∧
        (∀ k, (jsGet acc.1 k).isSome → (jsGet st.1 k).isSome) ∧
        (∀ mc n, mc? = some mc → mc.id = some n →
          (jsGet st.1 (intStr n)).isSome ∧ intStr n ∈ st.2) ∧
        (∀ p ∈ st.1, p.2.scenes ≠ []) := by
      cases mc? with
      | none =>
        refine ⟨acc, rfl, fun k hk => hk, fun k hk => Or.inl hk, fun k hk => hk, ?_, hacc⟩
        intro mc n hmc _
        cases hmc
      | some mc =>
        cases hid : mc.id with
        | none =>
          refine ⟨acc, applyMChapter_noId fresh now acc mc hid, fun k hk => hk,
            fun k hk => Or.inl hk, fun k hk => hk, ?_, hacc⟩
          intro mc' n hmc' hn
          have hmm : mc = mc' := by injection hmc'
          rw [← hmm, hid] at hn
          cases hn
        | some nid =>
          obtain ⟨newCh, hset, hnewne⟩ := applyMChapter_someId fresh now acc mc nid hid
          refine ⟨_, hset, ?_, ?_, ?_, ?_, ?_⟩
          · intro k hk
            simp only
            split
            · exact hk
            · exact List.mem_append_left _ hk
          · intro k hk
            simp only at hk
            split at hk
            · exact Or.inl hk
            · rcases List.mem_append.1 hk with h | h
              · exact Or.inl h
              · simp only [List.mem_singleton] at h
                exact Or.inr ⟨mc, nid, rfl, hid, h⟩
          · intro k hk
            exact jsGet_jsSet_isSome acc.1 k (intStr nid) newCh hk
          · intro mc' n hmc' hn
            have hmm : mc = mc' := by injection hmc'
            rw [← hmm, hid] at hn
            have hnn : nid = n := by injection hn
            subst hnn
            constructor
            · rw [jsGet_jsSet_self]
              rfl
            · simp only
              split
              · rename_i hmem
                exact hmem
              · exact List.mem_append_right _ (by simp)
          · exact jsSet_forall (fun c => c.scenes ≠ []) acc.1 (intStr nid) newCh hacc hnewne
    obtain ⟨st, hst, s1, s2, s3, s4, s5⟩ := hstep
    have hfold : (mc? :: t).foldl (applyMChapter fresh now) acc =
        t.foldl (applyMChapter fresh now) st := by
      simp only [List.foldl_cons, hst]
    obtain ⟨a1, a2, a3, a4, a5⟩ := ih st s5
    rw [hfold]
    refine ⟨?_, ?_, ?_, ?_, a5⟩
    · exact fun k hk => a1 k (s1 k hk)
    · intro k hk
      rcases a2 k hk with h | ⟨mc, n, hmc, hn, he⟩
      · rcases s2 k h with h2 | ⟨mc, n, hmc, hn, he⟩
        · exact Or.inl h2
        · exact Or.inr ⟨mc, n, by rw [hmc]; simp, hn, he⟩
      · exact Or.inr ⟨mc, n, List.mem_cons_of_mem _ hmc, hn, he⟩
    · exact fun k hk => a3 k (s3 k hk)
    · intro mc n hmc hn
      rcases List.mem_cons.1 hmc with hh | ht
      · obtain ⟨hsome, hmem⟩ := s4 mc n hh.symm hn
        exact ⟨a3 _ hsome, a1 _ hmem⟩
      · exact a4 mc n ht hn

theorem jsGet_filter_keep (o : JsObj Chapter) (keep : List String) (k : String)
    (h : (jsGet o k).isSome) (hk : k ∈ keep) :
    (jsGet (o.filter (fun p => keep.contains p.1)) k).isSome := by
  rw [jsGet_isSome_iff_mem_keys] at h
  obtain ⟨p, hp, hpe⟩ := List.mem_map.1 h
  have hcont : keep.contains p.1 = true := by
    have : p.1 ∈ keep := by rw [hpe]; exact hk
    exact (List.elem_iff).2 this
  have hpf : p ∈ o.filter (fun p => keep.contains p.1) :=
    List.mem_filter.2 ⟨hp, hcont⟩
  rw [← hpe]
  exact jsGet_isSome_of_mem _ p hpf

theorem mergeDeleted_inv (fresh : Nat → String) (now : String) (store : Store)
    (chapters : List (Option MChapter))
    (hwf : ∀ p ∈ store.chapters, p.2.scenes ≠ []) :
    ∀ p ∈ mergeDeleted fresh now store chapters, p.2.scenes ≠ [] := by
  intro p hp
  obtain ⟨_, _, _, _, f5⟩ :=
    mergeFold_spec fresh now chapters (store.chapters, ["standalone"]) hwf
  exact f5 p (List.mem_filter.1 hp).1

theorem mergeStandaloneFix_standalone (fresh : Nat → String) (now : String)
    (chs : JsObj Chapter) :
    (jsGet (mergeStandaloneFix fresh now chs) "standalone").isSome := by
  unfold mergeStandaloneFix
  split
  · rename_i hs; exact hs
  · rw [jsGet_jsSet_self]; rfl

theorem mergeStandaloneFix_isSome (fresh : Nat → String) (now : String)
    (chs : JsObj Chapter) (k : String) (h : (jsGet chs k).isSome) :
    (jsGet (mergeStandaloneFix fresh now chs) k).isSome := by
  unfold mergeStandaloneFix
  split
  · exact h
  · exact jsGet_jsSet_isSome chs k "standalone" _ h

theorem mergeStandaloneFix_inv (fresh : Nat → String) (now : String)
    (chs : JsObj Chapter) (h : ∀ p ∈ chs, p.2.scenes ≠ []) :
    ∀ p ∈ mergeStandaloneFix fresh now chs, p.2.scenes ≠ [] := by
  unfold mergeStandaloneFix
  split
  · exact h
  · exact jsSet_forall (fun c => c.scenes ≠ []) chs "standalone"
      ⟨"Standalone Scenes", "", [defaultScene (fresh 0) now], defaultChapterMetadata⟩ h (by simp)

theorem mergeStandaloneFix_keys (fresh : Nat → String) (now : String)
    (chs : JsObj Chapter) :
    ∀ p ∈ mergeStandaloneFix fresh now chs,
      p.1 = "standalone" ∨ p.1 ∈ chs.map Prod.fst := by
  unfold mergeStandaloneFix
  split
  · exact fun p hp => Or.inr (List.mem_map_of_mem _ hp)
  · intro p hp
    exact jsSet_keys_subset chs _ _ p hp

theorem mergeStandaloneReindex_isSome (fresh : Nat → String) (now : String)
    (chs : JsObj Chapter) (k : String) (h : (jsGet chs k).isSome) :
    (jsGet (mergeStandaloneReindex fresh now chs) k).isSome := by
  unfold mergeStandaloneReindex
  split
  · exact jsGet_jsSet_isSome chs k "standalone" _ h
  · exact h

theorem mergeStandaloneReindex_standalone (fresh : Nat → String) (now : String)
    (chs : JsObj Chapter) (h : (jsGet chs "standalone").isSome) :
    (jsGet (mergeStandaloneReindex fresh now chs) "standalone").isSome := by
  unfold mergeStandaloneReindex
  split
  · rw [jsGet_jsSet_self]; rfl
  · exact h

theorem mergeStandaloneReindex_inv (fresh : Nat → String) (now : String)
    (chs : JsObj Chapter) (h : ∀ p ∈ chs, p.2.scenes ≠ []) :
    ∀ p ∈ mergeStandaloneReindex fresh now chs, p.2.scenes ≠ [] := by
  unfold mergeStandaloneReindex
  split
  · rename_i sa hsa
    refine jsSet_forall (fun c => c.scenes ≠ []) chs _ _ h ?_
    show reindexScenes fresh now (some sa.chapterTitle) (sa.scenes.map Scene.toRaw) ≠ []
    apply reindexScenes_ne_nil
    have hne := h ("standalone", sa) (jsGet_mem chs "standalone" sa hsa)
    intro hnil
    rw [List.map_eq_nil_iff] at hnil
    exact hne hnil
  · exact h

theorem mergeStandaloneReindex_keys (fresh : Nat → String) (now : String)
    (chs : JsObj Chapter) :
    ∀ p ∈ mergeStandaloneReindex fresh now chs,
      p.1 = "standalone" ∨ p.1 ∈ chs.map Prod.fst := by
  unfold mergeStandaloneReindex
  split
  · intro p hp
    exact jsSet_keys_subset chs _ _ p hp
  · exact fun p hp => Or.inr (List.mem_map_of_mem _ hp)

/-- Master lemma for `mergeChaptersFromList` on well-formed stores: the merge
never throws and the resulting chapter map keeps `"standalone"`, keeps every
supplied manuscript-chapter id, and contains nothing else. -/
theorem mergeChaptersFromList_spec (fresh : Nat → String) (now : String)
    (store : Store) (chapters : List (Option MChapter))
    (hwf : ∀ p ∈ store.chapters, p.2.scenes ≠ []) :
    ∃ u, mergeChaptersFromList fresh now store chapters = some u ∧
      u.chapters = mergeChapterMap fresh now store chapters ∧
      (jsGet u.chapters "standalone").isSome ∧
      (∀ mc n, some mc ∈ chapters → mc.id = some n →
        (jsGet u.chapters (intStr n)).isSome) ∧
      (∀ p ∈ u.chapters, p.1 = "standalone" ∨
        ∃ mc n, some mc ∈ chapters ∧ mc.id = some n ∧ p.1 = intStr n) := by
  obtain ⟨f1, f2, f3, f4, f5⟩ :=
    mergeFold_spec fresh now chapters (store.chapters, ["standalone"]) hwf
  have hinv2 := mergeDeleted_inv fresh now store chapters hwf
  have hinv4 : ∀ p ∈ mergeChapterMap fresh now store chapters, p.2.scenes ≠ [] :=
    mergeStandaloneReindex_inv fresh now _ (mergeStandaloneFix_inv fresh now _ hinv2)
  have hstandal4 : (jsGet (mergeChapterMap fresh now store chapters) "standalone").isSome :=
    mergeStandaloneReindex_standalone fresh now _
      (mergeStandaloneFix_standalone fresh now _)
  have hlisted4 : ∀ mc n, some mc ∈ chapters → mc.id = some n →
      (jsGet (mergeChapterMap fresh now store chapters) (intStr n)).isSome := by
    intro mc n hmc hn
    obtain ⟨hsome1, hmem1⟩ := f4 mc n hmc hn
    have h2 : (jsGet (mergeDeleted fresh now store chapters) (intStr n)).isSome :=
      jsGet_filter_keep _ _ (intStr n) hsome1 hmem1
    exact mergeStandaloneReindex_isSome fresh now _ _
      (mergeStandaloneFix_isSome fresh now _ _ h2)
  have hkeys4 : ∀ p ∈ mergeChapterMap fresh now store chapters,
      p.1 = "standalone" ∨
      ∃ mc n, some mc ∈ chapters ∧ mc.id = some n ∧ p.1 = intStr n := by
    intro p hp
    rcases mergeStandaloneReindex_keys fresh now _ p hp with h | h
    · exact Or.inl h
    · obtain ⟨q, hq, hqe⟩ := List.mem_map.1 h
      rcases mergeStandaloneFix_keys fresh now _ q hq with h3 | h3
      · exact Or.inl (by rw [← hqe]; exact h3)
      · obtain ⟨r, hr, hre⟩ := List.mem_map.1 h3
        have hrk := (List.mem_filter.1 hr).2
        have hrmem : r.1 ∈ (mergeFolded fresh now store chapters).2 :=
          List.elem_iff.1 hrk
        rcases f2 r.1 hrmem with hh | ⟨mc, n, hmc, hn, he⟩
        · simp only [List.mem_singleton] at hh
          exact Or.inl (by rw [← hqe, ← hre]; exact hh)
        · exact Or.inr ⟨mc, n, hmc, hn, by rw [← hqe, ← hre]; exact he⟩
  have hscne : mergeCurScenes fresh now store chapters ≠ [] := by
    unfold mergeCurScenes
    cases hc : jsGet (mergeChapterMap fresh now store chapters)
        (mergeCurId fresh now store chapters) with
    | none => simp
    | some c =>
      simp only
      exact hinv4 (mergeCurId fresh now store chapters, c) (jsGet_mem _ _ c hc)
  by_cases hft : strTruthy (((mergeCurScenes fresh now store chapters).find?
      (fun s => s.id == store.currentSceneId)).map (·.id))
  · refine ⟨⟨mergeChapterMap fresh now store chapters,
      mergeCurId fresh now store chapters,
      (((mergeCurScenes fresh now store chapters).find?
        (fun s => s.id == store.currentSceneId)).map (·.id)).getD ""⟩,
      ?_, rfl, hstandal4, hlisted4, hkeys4⟩
    unfold mergeChaptersFromList
    rw [if_pos hft]
  · obtain ⟨s0, srest, hs0⟩ : ∃ s0 srest,
        mergeCurScenes fresh now store chapters = s0 :: srest := by
      cases hcs : mergeCurScenes fresh now store chapters with
      | nil => exact absurd hcs hscne
      | cons a t => exact ⟨a, t, rfl⟩
    refine ⟨⟨mergeChapterMap fresh now store chapters,
      mergeCurId fresh now store chapters, s0.id⟩, ?_, rfl, hstandal4, hlisted4, hkeys4⟩
    unfold mergeChaptersFromList
    rw [if_neg hft, hs0]
    rfl

/-- C4 (claim): the store returned by `mergeChaptersFromList` contains a
`"standalone"` chapter entry (re-created if missing) and an entry for every
supplied manuscript chapter id `String(chapter.id)`. -/
theorem C4_merge_keeps_standalone_and_listed (fresh : Nat → String) (now : String)
    (store : Store) (chapters : List (Option MChapter))
    (hwf : ∀ p ∈ store.chapters, p.2.scenes ≠ []) :
    ∃ u, mergeChaptersFromList fresh now store chapters = some u ∧
      (jsGet u.chapters "standalone").isSome ∧
      ∀ mc n, some mc ∈ chapters → mc.id = some n →
        (jsGet u.chapters (intStr n)).isSome := by
  obtain ⟨u, hu, _, ha, hb, _⟩ := mergeChaptersFromList_spec fresh now store chapters hwf
  exact ⟨u, hu, ha, hb⟩

/-- C5 (claim): every chapter key of the merged store is `"standalone"` or
the string form of a supplied manuscript chapter id — any other chapter of
the input store has been cascade-deleted. -/
theorem C5_merge_cascade_delete (fresh : Nat → String) (now : String)
    (store : Store) (chapters : List (Option MChapter))
    (hwf : ∀ p ∈ store.chapters, p.2.scenes ≠ []) :
    ∃ u, mergeChaptersFromList fresh now store chapters = some u ∧
      ∀ p ∈ u.chapters, p.1 = "standalone" ∨
        ∃ mc n, some mc ∈ chapters ∧ mc.id = some n ∧ p.1 = intStr n := by
  obtain ⟨u, hu, _, _, _, hc⟩ := mergeChaptersFromList_spec fresh now store chapters hwf
  exact ⟨u, hu, hc⟩

/-- Scene of the standalone chapter of the C4/C5 scenario store. -/
def c45SceneA : Scene := ⟨"sa1", "Standalone opener", "dialogue", "", "", [], some 0, "t0", "t0"⟩

/-- First scene of chapter "7" of the C4/C5 scenario store. -/
def c45Scene1 : Scene := ⟨"s71", "Ch7 first", "action", "x", "", [], some 0, "t0", "t0"⟩

/-- Second scene of chapter "7" of the C4/C5 scenario store. -/
def c45Scene2 : Scene := ⟨"s72", "Ch7 second", "dialogue", "y", "", [], some 1, "t0", "t0"⟩

/-- The C4/C5 scenario store: `{standalone: 1 scene, "7": 2 scenes}`, current
chapter `"7"`, current scene the second scene of `"7"`. -/
def c45Store : Store :=
  { chapters := [("standalone", ⟨"Standalone Scenes", "", [c45SceneA], defaultChapterMetadata⟩),
                 ("7", ⟨"Chapter Seven", "", [c45Scene1, c45Scene2], defaultChapterMetadata⟩)]
    currentChapterId := "7"
    currentSceneId := "s72" }

/-- Witness for C4 at the scenario store with supplied list `[{id: 7}]`. -/
theorem C4_merge_keeps_standalone_and_listed_witness :
    ∃ u, mergeChaptersFromList (fun _ => "g") "t" c45Store
        [some { id := some 7, title := some "Chapter Seven" }] = some u ∧
      (jsGet u.chapters "standalone").isSome ∧
      ∀ mc n, some mc ∈ [some ({ id := some 7, title := some "Chapter Seven" } : MChapter)] →
        mc.id = some n → (jsGet u.chapters (intStr n)).isSome :=
  C4_merge_keeps_standalone_and_listed (fun _ => "g") "t" c45Store
    [some { id := some 7, title := some "Chapter Seven" }] (by decide)

/-- Witness for C5 at the claim's scenario: supplying `[{id: 7}]` to the
scenario store keeps exactly `"7"` (2 scenes, reindexed) and `"standalone"`,
and no other chapter key appears. -/
theorem C5_merge_cascade_delete_witness :
    (∃ u, mergeChaptersFromList (fun _ => "g") "t" c45Store
        [some { id := some 7, title := some "Chapter Seven" }] = some u ∧
      ∀ p ∈ u.chapters, p.1 = "standalone" ∨
        ∃ mc n, some mc ∈ [some ({ id := some 7, title := some "Chapter Seven" } : MChapter)] ∧
          mc.id = some n ∧ p.1 = intStr n) ∧
    (mergeChaptersFromList (fun _ => "g") "t" c45Store
        [some { id := some 7, title := some "Chapter Seven" }]).map
      (fun u => (jsKeys u.chapters,
        (jsGet u.chapters "7").map (fun c => (c.scenes.length, c.scenes.map (fun s => s.ordering))),
        u.currentChapterId, u.currentSceneId))
      = some (["7", "standalone"], some (2, [some 0, some 1]), "7", "s72") :=
  ⟨C5_merge_cascade_delete (fun _ => "g") "t" c45Store
      [some { id := some 7, title := some "Chapter Seven" }] (by decide),
   by rfl⟩

end Lexicraft
